import Mathlib

set_option maxRecDepth 16384

/-!
Verification of the Firefly kernel paging and interrupt subsystems.

This file gives a shallow embedding, in Lean, of the C code in
src/kernel/mem.c and src/kernel/int.c, and proves the key properties
of the specification against that embedding.

Machine model: physical memory is a function from byte addresses to
64-bit words (represented as Nat; every access in the embedded code is
an aligned 8-byte load or store, so we index cells by the byte address
of the load).  Port input and output, and diagnostic printing, are
modelled as traces of events.
-/

namespace Firefly

/-- Physical memory: maps the byte address of an aligned 8-byte cell to
the 64-bit word stored there. -/
def Mem := Nat → Nat

/-- Store a 64-bit word at an (aligned) address. -/
def memWrite (M : Mem) (a v : Nat) : Mem :=
  fun x => if x = a then v else M x

theorem memWrite_same (M : Mem) (a v : Nat) : memWrite M a v a = v := by
  simp [memWrite]

theorem memWrite_other (M : Mem) (a v x : Nat) (h : x ≠ a) :
    memWrite M a v x = M x := by
  simp [memWrite, h]

/-! Constants from src/kernel/mem.c.  The PML4 root table lives at the
fixed physical address 0x2000 (the C global PML4). -/

def PML4 : Nat := 0x2000

def PAGE_ENTRIES_PER_TABLE : Nat := 512

def PAGE_FLAG_PRESENT : Nat := 1

def PAGE_FLAG_LARGE_PAGE_SIZE : Nat := 128

def MASK_BITS_51_TO_12 : Nat := 0x000FFFFFFFFFF000

def MASK_BITS_47_TO_21 : Nat := 0x0000FFFFFFE00000

def MASK_BITS_20_TO_0 : Nat := 0x00000000001FFFFF

/-- Truthiness of the C test (entry & PAGE_FLAG_PRESENT). -/
def isPresent (x : Nat) : Bool := x &&& PAGE_FLAG_PRESENT != 0

/-- Number of present entries among the first n 8-byte entries of the
table at address base: the counting loops of mem_Init. -/
def countPresentN (M : Mem) (base n : Nat) : Nat :=
  (List.range n).countP (fun k => isPresent (M (base + 8 * k)))

/-- Number of present entries of a full 512-entry table. -/
def countPresent (M : Mem) (base : Nat) : Nat :=
  countPresentN M base PAGE_ENTRIES_PER_TABLE

/-- The count a directory-pointer entry at address a would receive: the
number of present entries of the directory table it points to
(bits 51:12 of the entry). -/
def pdtCnt (M : Mem) (a : Nat) : Nat :=
  countPresent M (MASK_BITS_51_TO_12 &&& M a)

/-- Body of the middle (j) loop of mem_Init, with the directory-pointer
table at address B.  State: current memory and the PDPTEs accumulator.
Reads the entry pdpt[j], counts the present entries of the directory
table below it, and stores that count (shifted to bits 53-62) back into
pdpt[j] when it is positive. -/
def memInitStepJ (B : Nat) (s : Mem × Nat) (j : Nat) : Mem × Nat :=
  let M := s.1
  let pdpte := M (B + 8 * j)
  let PDPTEs := if isPresent pdpte then s.2 + 1 else s.2
  let PDTEs := countPresent M (MASK_BITS_51_TO_12 &&& pdpte)
  let M' := if 0 < PDTEs then memWrite M (B + 8 * j) ((PDTEs <<< 53) ||| pdpte)
            else M
  (M', PDPTEs)

/-- The middle (j) loop of mem_Init over the first n entries of the
directory-pointer table at B; returns the updated memory and the number
of present directory-pointer entries seen. -/
def memInitTableN (M : Mem) (B n : Nat) : Mem × Nat :=
  (List.range n).foldl (memInitStepJ B) (M, 0)

/-- Body of the outer (i) loop of mem_Init: process root entry PML4[i].
Skips entries that are not present; otherwise walks the
directory-pointer table below and stores the accumulated present count
into PML4[i] when it is positive. -/
def memInitStepI (M : Mem) (i : Nat) : Mem :=
  let pml4e := M (PML4 + 8 * i)
  if isPresent pml4e then
    let r := memInitTableN M (MASK_BITS_51_TO_12 &&& pml4e) PAGE_ENTRIES_PER_TABLE
    if 0 < r.2 then memWrite r.1 (PML4 + 8 * i) ((r.2 <<< 53) ||| pml4e)
    else r.1
  else M

/-- The outer loop of mem_Init over the first n root entries. -/
def mem_InitN (M : Mem) (n : Nat) : Mem :=
  (List.range n).foldl memInitStepI M

/-- mem_Init from src/kernel/mem.c: annotate every table entry of the
first two levels with the number of present entries in the table below
it (stored in bits 53-62). -/
def mem_Init (M : Mem) : Mem :=
  mem_InitN M PAGE_ENTRIES_PER_TABLE

/-- The count field of a page-table entry: bits 53-62. -/
def countField (x : Nat) : Nat := (x >>> 53) &&& 1023

/-- Address of root entry i. -/
def pml4Addr (i : Nat) : Nat := PML4 + 8 * i

/-- Address of the directory-pointer table referenced by root entry i. -/
def pdptBaseOf (M : Mem) (i : Nat) : Nat :=
  MASK_BITS_51_TO_12 &&& M (pml4Addr i)

/-! Bit-level helper lemmas.  The annotation writes have the shape
(c <<< 53) ||| x: they change only bits 53 and above, so they preserve
the present bit and the physical-address field of an entry. -/

theorem testBit_or_shift53_low (c x i : Nat) (h : i < 53) :
    ((c <<< 53) ||| x).testBit i = x.testBit i := by
  have h53 : ¬ (i ≥ 53) := by omega
  simp [Nat.testBit_or, Nat.testBit_shiftLeft, h53]

theorem isPresent_testBit (x : Nat) : isPresent x = x.testBit 0 := by
  have h := Nat.mod_two_eq_zero_or_one x
  rcases h with h | h <;>
    simp [isPresent, PAGE_FLAG_PRESENT, Nat.and_one_is_mod, Nat.testBit_zero, h]

theorem isPresent_or_shift53 (c x : Nat) :
    isPresent ((c <<< 53) ||| x) = isPresent x := by
  rw [isPresent_testBit, isPresent_testBit, testBit_or_shift53_low]
  omega

theorem mask51_12_lt : MASK_BITS_51_TO_12 < 2 ^ 52 := by
  norm_num [MASK_BITS_51_TO_12]

theorem mask51_12_testBit_high (i : Nat) (h : 52 ≤ i) :
    MASK_BITS_51_TO_12.testBit i = false := by
  apply Nat.testBit_lt_two_pow
  calc MASK_BITS_51_TO_12 < 2 ^ 52 := mask51_12_lt
    _ ≤ 2 ^ i := Nat.pow_le_pow_right (by omega) h

theorem mask51_12_and_or_shift53 (c x : Nat) :
    MASK_BITS_51_TO_12 &&& ((c <<< 53) ||| x) = MASK_BITS_51_TO_12 &&& x := by
  apply Nat.eq_of_testBit_eq
  intro i
  by_cases hi : i < 53
  · simp [Nat.testBit_and, testBit_or_shift53_low c x i hi]
  · simp [Nat.testBit_and, mask51_12_testBit_high i (by omega)]

theorem countField_testBit (x i : Nat) :
    (countField x).testBit i = (decide (i < 10) && x.testBit (53 + i)) := by
  rw [countField, Nat.testBit_and, Nat.testBit_shiftRight]
  rw [show (1023 : Nat) = 2 ^ 10 - 1 by norm_num, Nat.testBit_two_pow_sub_one]
  rw [Bool.and_comm]

theorem countField_eq_zero_bit (x i : Nat) (hx : countField x = 0) (hi : i < 10) :
    x.testBit (53 + i) = false := by
  have h := countField_testBit x i
  rw [hx] at h
  simp [hi] at h
  exact h

theorem countField_or_shift53 (c x : Nat) (hc : c < 1024) (hx : countField x = 0) :
    countField ((c <<< 53) ||| x) = c := by
  apply Nat.eq_of_testBit_eq
  intro i
  rw [countField_testBit]
  by_cases hi : i < 10
  · have hxbit := countField_eq_zero_bit x i hx hi
    have hge : (53 + i) ≥ 53 := by omega
    simp [Nat.testBit_or, Nat.testBit_shiftLeft, hge, hxbit, hi]
  · have hcbit : c.testBit i = false := by
      apply Nat.testBit_lt_two_pow
      calc c < 1024 := hc
        _ = 2 ^ 10 := by norm_num
        _ ≤ 2 ^ i := Nat.pow_le_pow_right (by omega) (by omega)
    simp [hi, hcbit]

/-- countPresentN only looks at the present bit of the cells of the
table, so it is unchanged by any memory transformation that preserves
present bits. -/
theorem countPresentN_congr {M M' : Mem}
    (h : ∀ x, isPresent (M' x) = isPresent (M x)) (b n : Nat) :
    countPresentN M' b n = countPresentN M b n := by
  unfold countPresentN
  apply List.countP_congr
  intro k _
  rw [h]

theorem countPresentN_succ (M : Mem) (b n : Nat) :
    countPresentN M b (n + 1) =
      countPresentN M b n + (if isPresent (M (b + 8 * n)) then 1 else 0) := by
  unfold countPresentN
  rw [List.range_succ, List.countP_append]
  simp [List.countP_cons]

theorem countPresentN_le (M : Mem) (b n : Nat) : countPresentN M b n ≤ n := by
  unfold countPresentN
  calc (List.range n).countP _ ≤ (List.range n).length := List.countP_le_length _
    _ = n := List.length_range n

/-- Complete characterization of the middle loop of mem_Init.  The
accumulator counts the present entries of the table; the entry at index
j is overwritten with its directory-present count (ORed into bits 53-62)
exactly when that count is positive, whether or not the entry itself is
present; and no other cell of memory is touched. -/
theorem memInitTableN_spec (M : Mem) (B : Nat) (n : Nat) :
    (memInitTableN M B n).2 = countPresentN M B n
    ∧ (∀ j, j < n → (memInitTableN M B n).1 (B + 8 * j) =
        if 0 < pdtCnt M (B + 8 * j)
        then (pdtCnt M (B + 8 * j) <<< 53) ||| M (B + 8 * j)
        else M (B + 8 * j))
    ∧ (∀ a, (∀ j, j < n → a ≠ B + 8 * j) → (memInitTableN M B n).1 a = M a) := by
  induction n with
  | zero =>
      refine ⟨rfl, ?_, ?_⟩
      · intro j hj
        exact absurd hj (Nat.not_lt_zero j)
      · intro a _
        rfl
  | succ n ih =>
      obtain ⟨ih1, ih2, ih3⟩ := ih
      have hfresh : ∀ j, j < n → B + 8 * n ≠ B + 8 * j := by
        intro j hj
        omega
      have hpdpte : (memInitTableN M B n).1 (B + 8 * n) = M (B + 8 * n) :=
        ih3 _ hfresh
      have hpres : ∀ x, isPresent ((memInitTableN M B n).1 x) = isPresent (M x) := by
        intro x
        by_cases hx : ∃ j, j < n ∧ x = B + 8 * j
        · obtain ⟨j, hj, rfl⟩ := hx
          rw [ih2 j hj]
          by_cases hc : 0 < pdtCnt M (B + 8 * j)
          · rw [if_pos hc, isPresent_or_shift53]
          · rw [if_neg hc]
        · push_neg at hx
          rw [ih3 x hx]
      have hcnt : ∀ b, countPresent ((memInitTableN M B n).1) b = countPresent M b := by
        intro b
        exact countPresentN_congr hpres b _
      have hstep : memInitTableN M B (n + 1) = memInitStepJ B (memInitTableN M B n) n := by
        unfold memInitTableN
        rw [List.range_succ, List.foldl_append, List.foldl_cons, List.foldl_nil]
      have hPDTEs : countPresent ((memInitTableN M B n).1)
          (MASK_BITS_51_TO_12 &&& M (B + 8 * n)) = pdtCnt M (B + 8 * n) := by
        rw [hcnt]
        rfl
      refine ⟨?_, ?_, ?_⟩
      · rw [hstep]
        simp only [memInitStepJ]
        rw [hpdpte, countPresentN_succ, ← ih1]
        by_cases hp : isPresent (M (B + 8 * n)) <;> simp [hp]
      · intro j hj
        rw [hstep]
        simp only [memInitStepJ]
        rw [hpdpte, hPDTEs]
        by_cases hjn : j = n
        · subst hjn
          by_cases hc : 0 < pdtCnt M (B + 8 * j)
          · rw [if_pos hc, if_pos hc, memWrite_same]
          · rw [if_neg hc, if_neg hc, hpdpte]
        · have hjlt : j < n := by omega
          have hne : B + 8 * j ≠ B + 8 * n := by omega
          by_cases hc : 0 < pdtCnt M (B + 8 * n)
          · rw [if_pos hc, memWrite_other _ _ _ _ hne, ih2 j hjlt]
          · rw [if_neg hc, ih2 j hjlt]
      · intro a ha
        rw [hstep]
        simp only [memInitStepJ]
        rw [hpdpte, hPDTEs]
        have hne : a ≠ B + 8 * n := ha n (by omega)
        by_cases hc : 0 < pdtCnt M (B + 8 * n)
        · rw [if_pos hc, memWrite_other _ _ _ _ hne, ih3 a (fun j hj => ha j (by omega))]
        · rw [if_neg hc, ih3 a (fun j hj => ha j (by omega))]

/-! Well-formedness of the initial page tables, assumed by mem_Init.
The directory-pointer tables must not overlap the root table, nor each
other: mem_Init reads each entry once at the top of its loop iteration
and writes the annotated value back later, so an aliased table could
see a stale value. -/

/-- The 4 KiB directory-pointer table of every present root entry is
disjoint from the root table itself, which spans 0x2000-0x2FFF. -/
def pml4Disjoint (M : Mem) : Prop :=
  ∀ i, i < 512 → isPresent (M (pml4Addr i)) →
    0x3000 ≤ pdptBaseOf M i ∨ pdptBaseOf M i + 0x1000 ≤ 0x2000

/-- The directory-pointer tables of distinct present root entries are
pairwise disjoint. -/
def pdptDisjoint (M : Mem) : Prop :=
  ∀ i₁, i₁ < 512 → isPresent (M (pml4Addr i₁)) →
    ∀ i₂, i₂ < 512 → isPresent (M (pml4Addr i₂)) → i₁ ≠ i₂ →
      pdptBaseOf M i₁ + 0x1000 ≤ pdptBaseOf M i₂ ∨
      pdptBaseOf M i₂ + 0x1000 ≤ pdptBaseOf M i₁

theorem pdpt_ne_pml4 {M : Mem} (hd1 : pml4Disjoint M) {i i' j : Nat}
    (hi : i < 512) (hp : isPresent (M (pml4Addr i))) (hi' : i' < 512) (hj : j < 512) :
    pdptBaseOf M i + 8 * j ≠ pml4Addr i' := by
  have h := hd1 i hi hp
  simp only [pml4Addr, PML4] at *
  omega

theorem pdpt_ne_pdpt {M : Mem} (hd2 : pdptDisjoint M) {i₁ i₂ j₁ j₂ : Nat}
    (hi₁ : i₁ < 512) (hp₁ : isPresent (M (pml4Addr i₁)))
    (hi₂ : i₂ < 512) (hp₂ : isPresent (M (pml4Addr i₂)))
    (hne : i₁ ≠ i₂) (hj₁ : j₁ < 512) (hj₂ : j₂ < 512) :
    pdptBaseOf M i₁ + 8 * j₁ ≠ pdptBaseOf M i₂ + 8 * j₂ := by
  have h := hd2 i₁ hi₁ hp₁ i₂ hi₂ hp₂ hne
  omega

theorem pml4Addr_ne {i i' : Nat} (h : i ≠ i') : pml4Addr i ≠ pml4Addr i' := by
  simp only [pml4Addr, PML4]
  omega

/-- Invariant of the outer loop of mem_Init after the first n root
entries have been processed: root entries not yet reached, and root
entries that are absent, are untouched; processed present root entries
carry their directory-pointer-present count; the cells of the
directory-pointer table of root entry i carry their directory-present
count exactly when i has been processed and the count is positive; and
every other memory cell is untouched. -/
structure InitInv (M N : Mem) (n : Nat) : Prop where
  pml4_future : ∀ i, i < 512 → n ≤ i → N (pml4Addr i) = M (pml4Addr i)
  pml4_absent : ∀ i, i < 512 → ¬ isPresent (M (pml4Addr i)) →
    N (pml4Addr i) = M (pml4Addr i)
  pml4_done : ∀ i, i < n → isPresent (M (pml4Addr i)) →
    N (pml4Addr i) =
      if 0 < countPresent M (pdptBaseOf M i)
      then (countPresent M (pdptBaseOf M i) <<< 53) ||| M (pml4Addr i)
      else M (pml4Addr i)
  pdpt_cells : ∀ i, i < 512 → isPresent (M (pml4Addr i)) → ∀ j, j < 512 →
    N (pdptBaseOf M i + 8 * j) =
      if i < n ∧ 0 < pdtCnt M (pdptBaseOf M i + 8 * j)
      then (pdtCnt M (pdptBaseOf M i + 8 * j) <<< 53) ||| M (pdptBaseOf M i + 8 * j)
      else M (pdptBaseOf M i + 8 * j)
  untouched : ∀ a, (∀ i, i < 512 → a ≠ pml4Addr i) →
    (∀ i, i < 512 → isPresent (M (pml4Addr i)) → ∀ j, j < 512 →
      a ≠ pdptBaseOf M i + 8 * j) →
    N a = M a

/-- Every cell of a memory satisfying the invariant is either untouched
or has had a count ORed into bits 53 and above. -/
theorem InitInv.form {M N : Mem} {n : Nat} (h : InitInv M N n) (x : Nat) :
    N x = M x ∨ ∃ c, N x = (c <<< 53) ||| M x := by
  by_cases h1 : ∃ i, i < 512 ∧ x = pml4Addr i
  · obtain ⟨i, hi, rfl⟩ := h1
    by_cases hp : isPresent (M (pml4Addr i))
    · by_cases hlt : i < n
      · rw [h.pml4_done i hlt hp]
        by_cases hc : 0 < countPresent M (pdptBaseOf M i)
        · rw [if_pos hc]
          exact Or.inr ⟨_, rfl⟩
        · rw [if_neg hc]
          exact Or.inl rfl
      · exact Or.inl (h.pml4_future i hi (by omega))
    · exact Or.inl (h.pml4_absent i hi hp)
  · by_cases h2 : ∃ i, i < 512 ∧ isPresent (M (pml4Addr i)) ∧
        ∃ j, j < 512 ∧ x = pdptBaseOf M i + 8 * j
    · obtain ⟨i, hi, hp, j, hj, rfl⟩ := h2
      rw [h.pdpt_cells i hi hp j hj]
      by_cases hc : i < n ∧ 0 < pdtCnt M (pdptBaseOf M i + 8 * j)
      · rw [if_pos hc]
        exact Or.inr ⟨_, rfl⟩
      · rw [if_neg hc]
        exact Or.inl rfl
    · push_neg at h1 h2
      exact Or.inl (h.untouched x (fun i hi => h1 i hi) (fun i hi hp j hj => h2 i hi hp j hj))

theorem InitInv.presStable {M N : Mem} {n : Nat} (h : InitInv M N n) (x : Nat) :
    isPresent (N x) = isPresent (M x) := by
  rcases h.form x with hf | ⟨c, hf⟩
  · rw [hf]
  · rw [hf, isPresent_or_shift53]

theorem InitInv.maskStable {M N : Mem} {n : Nat} (h : InitInv M N n) (x : Nat) :
    MASK_BITS_51_TO_12 &&& N x = MASK_BITS_51_TO_12 &&& M x := by
  rcases h.form x with hf | ⟨c, hf⟩
  · rw [hf]
  · rw [hf, mask51_12_and_or_shift53]

theorem InitInv.cntStable {M N : Mem} {n : Nat} (h : InitInv M N n) (b : Nat) :
    countPresent N b = countPresent M b :=
  countPresentN_congr h.presStable b _

theorem InitInv.pdtCntStable {M N : Mem} {n : Nat} (h : InitInv M N n) {a : Nat}
    (ha : N a = M a) : pdtCnt N a = pdtCnt M a := by
  unfold pdtCnt
  rw [ha, h.cntStable]

theorem pml4Addr_def (i : Nat) : pml4Addr i = PML4 + 8 * i := rfl

theorem pdptBaseOf_eq (M : Mem) (i : Nat) :
    MASK_BITS_51_TO_12 &&& M (pml4Addr i) = pdptBaseOf M i := rfl

theorem PAGE_ENTRIES_PER_TABLE_eq : PAGE_ENTRIES_PER_TABLE = 512 := rfl

theorem mem_InitN_zero (M : Mem) : mem_InitN M 0 = M := by
  simp [mem_InitN]

theorem mem_InitN_succ (M : Mem) (n : Nat) :
    mem_InitN M (n + 1) = memInitStepI (mem_InitN M n) n := by
  unfold mem_InitN
  rw [List.range_succ, List.foldl_append, List.foldl_cons, List.foldl_nil]

/-- The outer loop of mem_Init establishes the invariant. -/
theorem mem_InitN_inv (M : Mem) (hd1 : pml4Disjoint M) (hd2 : pdptDisjoint M) :
    ∀ n, n ≤ 512 → InitInv M (mem_InitN M n) n := by
  intro n
  induction n with
  | zero =>
      intro _
      rw [mem_InitN_zero]
      refine ⟨fun i _ _ => rfl, fun i _ _ => rfl, fun i hi _ => absurd hi (Nat.not_lt_zero i),
        ?_, fun a _ _ => rfl⟩
      intro i _ _ j _
      have hcond : ¬ (i < 0 ∧ 0 < pdtCnt M (pdptBaseOf M i + 8 * j)) := by
        intro hc
        exact absurd hc.1 (Nat.not_lt_zero i)
      rw [if_neg hcond]
  | succ n ihn =>
      intro hn
      have ih : InitInv M (mem_InitN M n) n := ihn (by omega)
      have hn512 : n < 512 := by omega
      have hNpml4 : mem_InitN M n (pml4Addr n) = M (pml4Addr n) :=
        ih.pml4_future n hn512 (Nat.le_refl n)
      by_cases hp : isPresent (M (pml4Addr n))
      · -- present root entry: the directory-pointer table below is annotated,
        -- then the root entry receives its present count.
        have hstep : mem_InitN M (n + 1) =
            (if 0 < (memInitTableN (mem_InitN M n) (pdptBaseOf M n) 512).2
             then memWrite (memInitTableN (mem_InitN M n) (pdptBaseOf M n) 512).1
               (pml4Addr n)
               (((memInitTableN (mem_InitN M n) (pdptBaseOf M n) 512).2 <<< 53) |||
                 M (pml4Addr n))
             else (memInitTableN (mem_InitN M n) (pdptBaseOf M n) 512).1) := by
          rw [mem_InitN_succ]
          unfold memInitStepI
          simp only [← pml4Addr_def, hNpml4, hp, if_true, PAGE_ENTRIES_PER_TABLE_eq,
            pdptBaseOf_eq]
        obtain ⟨t1, t2, t3⟩ := memInitTableN_spec (mem_InitN M n) (pdptBaseOf M n) 512
        have hr2 : (memInitTableN (mem_InitN M n) (pdptBaseOf M n) 512).2 =
            countPresent M (pdptBaseOf M n) := by
          rw [t1]
          exact ih.cntStable (pdptBaseOf M n)
        have hcellN : ∀ j, j < 512 →
            mem_InitN M n (pdptBaseOf M n + 8 * j) = M (pdptBaseOf M n + 8 * j) := by
          intro j hj
          rw [ih.pdpt_cells n hn512 hp j hj, if_neg]
          intro hc
          exact absurd hc.1 (Nat.lt_irrefl n)
        have ht2 : ∀ j, j < 512 →
            (memInitTableN (mem_InitN M n) (pdptBaseOf M n) 512).1 (pdptBaseOf M n + 8 * j) =
              if 0 < pdtCnt M (pdptBaseOf M n + 8 * j)
              then (pdtCnt M (pdptBaseOf M n + 8 * j) <<< 53) ||| M (pdptBaseOf M n + 8 * j)
              else M (pdptBaseOf M n + 8 * j) := by
          intro j hj
          rw [t2 j hj, ih.pdtCntStable (hcellN j hj), hcellN j hj]
        have hnotpdpt : ∀ i', i' < 512 →
            pml4Addr i' ≠ pdptBaseOf M n + 8 * (0 : Nat) →
            True := fun _ _ _ => trivial
        have ht3pml4 : ∀ i', i' < 512 →
            (memInitTableN (mem_InitN M n) (pdptBaseOf M n) 512).1 (pml4Addr i') =
              mem_InitN M n (pml4Addr i') := by
          intro i' hi'
          apply t3
          intro j hj
          exact (pdpt_ne_pml4 hd1 hn512 hp hi' hj).symm
        have hMsn : mem_InitN M (n + 1) (pml4Addr n) =
            if 0 < countPresent M (pdptBaseOf M n)
            then (countPresent M (pdptBaseOf M n) <<< 53) ||| M (pml4Addr n)
            else M (pml4Addr n) := by
          rw [hstep]
          by_cases hc : 0 < countPresent M (pdptBaseOf M n)
          · rw [if_pos (hr2 ▸ hc : 0 < (memInitTableN (mem_InitN M n) (pdptBaseOf M n) 512).2),
              memWrite_same, hr2, if_pos hc]
          · rw [if_neg (fun hx => hc (hr2 ▸ hx)), ht3pml4 n hn512, hNpml4, if_neg hc]
        have hMs_other : ∀ x, x ≠ pml4Addr n →
            mem_InitN M (n + 1) x =
              (memInitTableN (mem_InitN M n) (pdptBaseOf M n) 512).1 x := by
          intro x hx
          rw [hstep]
          by_cases hc : 0 < (memInitTableN (mem_InitN M n) (pdptBaseOf M n) 512).2
          · rw [if_pos hc, memWrite_other _ _ _ _ hx]
          · rw [if_neg hc]
        have hMsN : ∀ x, x ≠ pml4Addr n →
            (∀ j, j < 512 → x ≠ pdptBaseOf M n + 8 * j) →
            mem_InitN M (n + 1) x = mem_InitN M n x := by
          intro x hx hxj
          rw [hMs_other x hx]
          exact t3 x hxj
        refine ⟨?_, ?_, ?_, ?_, ?_⟩
        · intro i hi hni
          have hne : pml4Addr i ≠ pml4Addr n := pml4Addr_ne (by omega)
          rw [hMsN _ hne (fun j hj => (pdpt_ne_pml4 hd1 hn512 hp hi hj).symm)]
          exact ih.pml4_future i hi (by omega)
        · intro i hi hnp
          have hine : i ≠ n := fun he => hnp (he ▸ hp)
          have hne : pml4Addr i ≠ pml4Addr n := pml4Addr_ne hine
          rw [hMsN _ hne (fun j hj => (pdpt_ne_pml4 hd1 hn512 hp hi hj).symm)]
          exact ih.pml4_absent i hi hnp
        · intro i hi hpi
          by_cases hin : i = n
          · subst hin
            exact hMsn
          · have hne : pml4Addr i ≠ pml4Addr n := pml4Addr_ne hin
            rw [hMsN _ hne
              (fun j hj => (pdpt_ne_pml4 hd1 hn512 hp (show i < 512 by omega) hj).symm)]
            exact ih.pml4_done i (by omega) hpi
        · intro i hi hpi j hj
          have hnepml4 : pdptBaseOf M i + 8 * j ≠ pml4Addr n :=
            pdpt_ne_pml4 hd1 hi hpi hn512 hj
          by_cases hin : i = n
          · subst hin
            rw [hMs_other _ hnepml4, ht2 j hj]
            by_cases hc : 0 < pdtCnt M (pdptBaseOf M i + 8 * j)
            · rw [if_pos hc, if_pos ⟨Nat.lt_succ_self i, hc⟩]
            · rw [if_neg hc, if_neg (fun hx => hc hx.2)]
          · have hnepdpt : ∀ j', j' < 512 →
                pdptBaseOf M i + 8 * j ≠ pdptBaseOf M n + 8 * j' := by
              intro j' hj'
              exact pdpt_ne_pdpt hd2 hi hpi hn512 hp hin hj hj'
            rw [hMsN _ hnepml4 hnepdpt, ih.pdpt_cells i hi hpi j hj]
            by_cases hc : 0 < pdtCnt M (pdptBaseOf M i + 8 * j)
            · by_cases hilt : i < n
              · rw [if_pos ⟨hilt, hc⟩, if_pos ⟨by omega, hc⟩]
              · rw [if_neg (fun hx => hilt hx.1),
                  if_neg (fun hx => hilt (lt_of_le_of_ne (Nat.lt_succ_iff.mp hx.1) hin))]
            · rw [if_neg (fun hx => hc hx.2), if_neg (fun hx => hc hx.2)]
        · intro a h1 h2
          have hne : a ≠ pml4Addr n := h1 n hn512
          rw [hMsN _ hne (fun j hj => h2 n hn512 hp j hj)]
          exact ih.untouched a h1 h2
      · -- absent root entry: this iteration is a no-op.
        have hstep : mem_InitN M (n + 1) = mem_InitN M n := by
          rw [mem_InitN_succ]
          unfold memInitStepI
          simp only [← pml4Addr_def, hNpml4, hp, if_false, Bool.false_eq_true]
        rw [hstep]
        refine ⟨?_, ih.pml4_absent, ?_, ?_, ih.untouched⟩
        · intro i hi hni
          exact ih.pml4_future i hi (by omega)
        · intro i hi hpi
          have hin : i ≠ n := fun he => hp (he ▸ hpi)
          exact ih.pml4_done i (by omega) hpi
        · intro i hi hpi j hj
          have hin : i ≠ n := fun he => hp (he ▸ hpi)
          rw [ih.pdpt_cells i hi hpi j hj]
          by_cases hc : 0 < pdtCnt M (pdptBaseOf M i + 8 * j)
          · by_cases hilt : i < n
            · rw [if_pos ⟨hilt, hc⟩, if_pos ⟨by omega, hc⟩]
            · rw [if_neg (fun hx => hilt hx.1),
                if_neg (fun hx => hilt (lt_of_le_of_ne (Nat.lt_succ_iff.mp hx.1) hin))]
          · rw [if_neg (fun hx => hc hx.2), if_neg (fun hx => hc hx.2)]

theorem countPresent_lt_1024 (M : Mem) (b : Nat) : countPresent M b < 1024 := by
  have h := countPresentN_le M b PAGE_ENTRIES_PER_TABLE
  have h512 : PAGE_ENTRIES_PER_TABLE = 512 := rfl
  unfold countPresent
  omega

theorem mem_Init_eq (M : Mem) : mem_Init M = mem_InitN M 512 := rfl

theorem pdtCnt_lt_1024 (M : Mem) (a : Nat) : pdtCnt M a < 1024 :=
  countPresent_lt_1024 M (MASK_BITS_51_TO_12 &&& M a)

/-- Claim C1: after mem_Init, for every present root entry and every
present directory-pointer entry below a present root entry, the count
field (bits 53-62) of the entry equals the number of present entries of
the table the entry references, counted directly in the final memory.
Hypotheses: the count fields start out clear, and the tables do not
overlap. -/
theorem mem_Init_annotates_present_counts (M : Mem)
    (hcnt1 : ∀ i, i < 512 → isPresent (M (pml4Addr i)) →
      countField (M (pml4Addr i)) = 0)
    (hcnt2 : ∀ i, i < 512 → isPresent (M (pml4Addr i)) → ∀ j, j < 512 →
      countField (M (pdptBaseOf M i + 8 * j)) = 0)
    (hd1 : pml4Disjoint M) (hd2 : pdptDisjoint M) :
    (∀ i, i < 512 → isPresent (mem_Init M (pml4Addr i)) →
      countField (mem_Init M (pml4Addr i)) =
        countPresent (mem_Init M) (MASK_BITS_51_TO_12 &&& mem_Init M (pml4Addr i)))
    ∧ (∀ i, i < 512 → isPresent (mem_Init M (pml4Addr i)) → ∀ j, j < 512 →
      isPresent (mem_Init M ((MASK_BITS_51_TO_12 &&& mem_Init M (pml4Addr i)) + 8 * j)) →
      countField (mem_Init M ((MASK_BITS_51_TO_12 &&& mem_Init M (pml4Addr i)) + 8 * j)) =
        countPresent (mem_Init M)
          (MASK_BITS_51_TO_12 &&&
            mem_Init M ((MASK_BITS_51_TO_12 &&& mem_Init M (pml4Addr i)) + 8 * j))) := by
  have hinv : InitInv M (mem_Init M) 512 := by
    rw [mem_Init_eq]
    exact mem_InitN_inv M hd1 hd2 512 (Nat.le_refl 512)
  have hbase : ∀ i, MASK_BITS_51_TO_12 &&& mem_Init M (pml4Addr i) = pdptBaseOf M i := by
    intro i
    rw [hinv.maskStable, pdptBaseOf_eq]
  constructor
  · intro i hi hpN
    have hp : isPresent (M (pml4Addr i)) := by
      rw [← hinv.presStable]
      exact hpN
    rw [hbase i, hinv.cntStable, hinv.pml4_done i hi hp]
    by_cases hc : 0 < countPresent M (pdptBaseOf M i)
    · rw [if_pos hc]
      exact countField_or_shift53 _ _ (countPresent_lt_1024 M _) (hcnt1 i hi hp)
    · rw [if_neg hc, hcnt1 i hi hp]
      omega
  · intro i hi hpN j hj _
    have hp : isPresent (M (pml4Addr i)) := by
      rw [← hinv.presStable]
      exact hpN
    rw [hbase i]
    rw [hinv.pdpt_cells i hi hp j hj, hinv.cntStable]
    by_cases hc : 0 < pdtCnt M (pdptBaseOf M i + 8 * j)
    · rw [if_pos ⟨hi, hc⟩,
        countField_or_shift53 _ _ (pdtCnt_lt_1024 M _) (hcnt2 i hi hp j hj),
        mask51_12_and_or_shift53]
      rfl
    · rw [if_neg (fun hx => hc hx.2), hcnt2 i hi hp j hj]
      show (0 : Nat) = pdtCnt M (pdptBaseOf M i + 8 * j)
      omega

/-- A small concrete page-table memory: one present root entry at index
0 pointing at a directory-pointer table at 0x3000, whose entry 0 points
at a directory table at 0x4000, whose entry 0 is a present large page. -/
def memW : Mem := fun a =>
  if a = 0x2000 then 0x3003
  else if a = 0x3000 then 0x4003
  else if a = 0x4000 then 0x83
  else 0

theorem mem_Init_annotates_present_counts_witness :
    (∀ i, i < 512 → isPresent (memW (pml4Addr i)) →
      countField (memW (pml4Addr i)) = 0)
    ∧ (∀ i, i < 512 → isPresent (memW (pml4Addr i)) → ∀ j, j < 512 →
      countField (memW (pdptBaseOf memW i + 8 * j)) = 0)
    ∧ pml4Disjoint memW ∧ pdptDisjoint memW
    ∧ ((∀ i, i < 512 → isPresent (mem_Init memW (pml4Addr i)) →
      countField (mem_Init memW (pml4Addr i)) =
        countPresent (mem_Init memW) (MASK_BITS_51_TO_12 &&& mem_Init memW (pml4Addr i)))
    ∧ (∀ i, i < 512 → isPresent (mem_Init memW (pml4Addr i)) → ∀ j, j < 512 →
      isPresent (mem_Init memW
        ((MASK_BITS_51_TO_12 &&& mem_Init memW (pml4Addr i)) + 8 * j)) →
      countField (mem_Init memW
        ((MASK_BITS_51_TO_12 &&& mem_Init memW (pml4Addr i)) + 8 * j)) =
        countPresent (mem_Init memW)
          (MASK_BITS_51_TO_12 &&&
            mem_Init memW ((MASK_BITS_51_TO_12 &&& mem_Init memW (pml4Addr i)) + 8 * j)))) := by
  have h1 : ∀ i, i < 512 → isPresent (memW (pml4Addr i)) →
      countField (memW (pml4Addr i)) = 0 := by decide
  have h2 : ∀ i, i < 512 → isPresent (memW (pml4Addr i)) → ∀ j, j < 512 →
      countField (memW (pdptBaseOf memW i + 8 * j)) = 0 := by decide
  have h3 : pml4Disjoint memW := by
    unfold pml4Disjoint
    decide
  have hu : ∀ i, i < 512 → isPresent (memW (pml4Addr i)) → i = 0 := by decide
  have h4 : pdptDisjoint memW := by
    intro i₁ hi₁ hp₁ i₂ hi₂ hp₂ hne
    exact absurd ((hu i₁ hi₁ hp₁).trans (hu i₂ hi₂ hp₂).symm) hne
  exact ⟨h1, h2, h3, h4, mem_Init_annotates_present_counts memW h1 h2 h3 h4⟩

/-- A page-table memory exercising the treatment of absent
directory-pointer entries by mem_Init: root entry 0 is present and
points at a directory-pointer table at 0x3000 whose entries are all
absent (value 0), so the directory walked below each of them is the
one at address 0, and the cell at address 0 is present. -/
def memC7 : Mem := fun a =>
  if a = 0x2000 then 0x3001
  else if a = 0 then 1
  else 0

theorem memC7_pml4Disjoint : pml4Disjoint memC7 := by
  unfold pml4Disjoint
  decide

theorem memC7_pdptDisjoint : pdptDisjoint memC7 := by
  have hu : ∀ i, i < 512 → isPresent (memC7 (pml4Addr i)) → i = 0 := by decide
  intro i₁ hi₁ hp₁ i₂ hi₂ hp₂ hne
  exact absurd ((hu i₁ hi₁ hp₁).trans (hu i₂ hi₂ hp₂).symm) hne

theorem memC7_inv : InitInv memC7 (mem_Init memC7) 512 := by
  rw [mem_Init_eq]
  exact mem_InitN_inv memC7 memC7_pml4Disjoint memC7_pdptDisjoint 512 (Nat.le_refl 512)

/-- Counterexample to claim C7: the directory-pointer entry at 0x3000
is absent in memC7, yet mem_Init writes it (the directory table below
it, read through its address bits, has a present entry). -/
theorem mem_Init_writes_absent_pdpte :
    isPresent (memC7 0x3000) = false ∧ mem_Init memC7 0x3000 ≠ memC7 0x3000 := by
  have hcell := memC7_inv.pdpt_cells 0 (by norm_num) (by decide) 0 (by norm_num)
  have hb : pdptBaseOf memC7 0 + 8 * 0 = 0x3000 := by decide
  rw [hb] at hcell
  have hcnt : pdtCnt memC7 0x3000 = 1 := by decide
  rw [hcnt] at hcell
  rw [if_pos ⟨by norm_num, by norm_num⟩] at hcell
  have h0 : memC7 0x3000 = 0 := by decide
  rw [h0] at hcell
  refine ⟨by decide, ?_⟩
  rw [hcell, h0]
  decide

/-- Claim C7 (amended): mem_Init short-circuits only on absent root
entries.  Below a present root entry, every directory-pointer entry -
present or absent - has the directory table its address bits reference
read and counted, and is overwritten exactly when that count is
positive. -/
theorem mem_Init_root_short_circuit_only (M : Mem)
    (hd1 : pml4Disjoint M) (hd2 : pdptDisjoint M) :
    (∀ i, i < 512 → ¬ isPresent (M (pml4Addr i)) →
      mem_Init M (pml4Addr i) = M (pml4Addr i))
    ∧ (∀ i, i < 512 → isPresent (M (pml4Addr i)) → ∀ j, j < 512 →
      mem_Init M (pdptBaseOf M i + 8 * j) =
        if 0 < pdtCnt M (pdptBaseOf M i + 8 * j)
        then (pdtCnt M (pdptBaseOf M i + 8 * j) <<< 53) ||| M (pdptBaseOf M i + 8 * j)
        else M (pdptBaseOf M i + 8 * j)) := by
  have hinv : InitInv M (mem_Init M) 512 := by
    rw [mem_Init_eq]
    exact mem_InitN_inv M hd1 hd2 512 (Nat.le_refl 512)
  refine ⟨hinv.pml4_absent, ?_⟩
  intro i hi hp j hj
  rw [hinv.pdpt_cells i hi hp j hj]
  by_cases hq : 0 < pdtCnt M (pdptBaseOf M i + 8 * j)
  · rw [if_pos ⟨hi, hq⟩, if_pos hq]
  · rw [if_neg (fun hx => hq hx.2), if_neg hq]

theorem mem_Init_root_short_circuit_only_witness :
    pml4Disjoint memC7 ∧ pdptDisjoint memC7
    ∧ ((∀ i, i < 512 → ¬ isPresent (memC7 (pml4Addr i)) →
      mem_Init memC7 (pml4Addr i) = memC7 (pml4Addr i))
    ∧ (∀ i, i < 512 → isPresent (memC7 (pml4Addr i)) → ∀ j, j < 512 →
      mem_Init memC7 (pdptBaseOf memC7 i + 8 * j) =
        if 0 < pdtCnt memC7 (pdptBaseOf memC7 i + 8 * j)
        then (pdtCnt memC7 (pdptBaseOf memC7 i + 8 * j) <<< 53) |||
          memC7 (pdptBaseOf memC7 i + 8 * j)
        else memC7 (pdptBaseOf memC7 i + 8 * j))) :=
  ⟨memC7_pml4Disjoint, memC7_pdptDisjoint,
    mem_Init_root_short_circuit_only memC7 memC7_pml4Disjoint memC7_pdptDisjoint⟩

/-! The diagnostic walker mem_DebugPaging.  Each std_Printk call is
modelled as one event; the walker state carries the previous coalesced
range, the count of ranges flushed, and the events emitted so far. -/

inductive DbgEvent where
  | startLine : DbgEvent
  | pml4eZeroAbsent : DbgEvent
  | sBitUnset (i j k : Nat) : DbgEvent
  | rangeLine (vs ve ps pe : Nat) : DbgEvent
  | stoppingLine (n : Nat) : DbgEvent
  | countLine (n : Nat) : DbgEvent
  | endLine : DbgEvent
deriving DecidableEq

structure DbgState where
  prevVirtualStart : Nat
  prevVirtualEnd : Nat
  prevPageStart : Nat
  prevPageEnd : Nat
  pages : Nat
  events : List DbgEvent
deriving DecidableEq

/-- Physical start of the 2 MiB page a directory leaf maps: bits 47-21. -/
def pageStartOf (pde : Nat) : Nat := MASK_BITS_47_TO_21 &&& pde

/-- Physical end of the page: start with maximal offset. -/
def pageEndOf (pde : Nat) : Nat := pageStartOf pde ||| MASK_BITS_20_TO_0

/-- Virtual start reconstructed from the tree position (i, j, k). -/
def virtualStartOf (i j k : Nat) : Nat :=
  ((0x1ff &&& i) <<< 39) ||| ((0x1ff &&& j) <<< 30) ||| ((0x1ff &&& k) <<< 21)

/-- Virtual end of the 2 MiB region. -/
def virtualEndOf (i j k : Nat) : Nat := virtualStartOf i j k ||| MASK_BITS_20_TO_0

/-- Processing of one present large-page leaf (mem.c lines 264-293):
merge into the previous range when both physical and virtual
contiguity hold, otherwise flush the previous range (printing it while
fewer than maxPagesPrinted ranges have been printed) and start a new
range at this leaf. -/
def debugLeafStep (maxPagesPrinted : Nat) (s : DbgState) (i j k pde : Nat) : DbgState :=
  let pageStart := pageStartOf pde
  let pageEnd := pageEndOf pde
  let virtualStart := virtualStartOf i j k
  let virtualEnd := virtualEndOf i j k
  if 0 < s.prevPageEnd then
    if s.prevPageEnd + 1 = pageStart ∧ s.prevVirtualEnd + 1 = virtualStart then
      { s with
        prevPageEnd := pageEnd
        prevVirtualEnd := virtualEnd }
    else
      let pages := s.pages + 1
      let evs :=
        if pages < maxPagesPrinted then
          [DbgEvent.rangeLine s.prevVirtualStart s.prevVirtualEnd
            s.prevPageStart s.prevPageEnd]
        else if pages = maxPagesPrinted then [DbgEvent.stoppingLine maxPagesPrinted]
        else []
      { prevVirtualStart := virtualStart
        prevVirtualEnd := virtualEnd
        prevPageStart := pageStart
        prevPageEnd := pageEnd
        pages := pages
        events := s.events ++ evs }
  else
    { s with
      prevVirtualStart := virtualStart
      prevVirtualEnd := virtualEnd
      prevPageStart := pageStart
      prevPageEnd := pageEnd }

/-- Innermost loop body: skip absent directory entries, report present
entries without the large-page flag as anomalies, process leaves. -/
def debugStepK (M : Mem) (maxPagesPrinted i j pdtB : Nat) (s : DbgState) (k : Nat) :
    DbgState :=
  let pde := M (pdtB + 8 * k)
  if isPresent pde then
    if pde &&& PAGE_FLAG_LARGE_PAGE_SIZE = 0 then
      { s with events := s.events ++ [DbgEvent.sBitUnset i j k] }
    else debugLeafStep maxPagesPrinted s i j k pde
  else s

/-- Middle loop body: walk the directory below a present
directory-pointer entry. -/
def debugStepJ (M : Mem) (maxPagesPrinted i pdptB : Nat) (s : DbgState) (j : Nat) :
    DbgState :=
  let pdpte := M (pdptB + 8 * j)
  if isPresent pdpte then
    (List.range PAGE_ENTRIES_PER_TABLE).foldl
      (debugStepK M maxPagesPrinted i j (MASK_BITS_51_TO_12 &&& pdpte)) s
  else s

/-- Outer loop body: walk the directory-pointer table below a present
root entry; a missing root entry 0 is reported. -/
def debugStepI (M : Mem) (maxPagesPrinted : Nat) (s : DbgState) (i : Nat) : DbgState :=
  let pml4e := M (PML4 + 8 * i)
  if isPresent pml4e then
    (List.range PAGE_ENTRIES_PER_TABLE).foldl
      (debugStepJ M maxPagesPrinted i (MASK_BITS_51_TO_12 &&& pml4e)) s
  else if i = 0 then { s with events := s.events ++ [DbgEvent.pml4eZeroAbsent] }
  else s

/-- The triple loop of mem_DebugPaging (mem.c lines 231-296). -/
def mem_DebugPagingWalk (M : Mem) (maxPagesPrinted : Nat) : DbgState :=
  (List.range PAGE_ENTRIES_PER_TABLE).foldl (debugStepI M maxPagesPrinted)
    { prevVirtualStart := 0, prevVirtualEnd := 0, prevPageStart := 0, prevPageEnd := 0,
      pages := 0, events := [DbgEvent.startLine] }

/-- mem_DebugPaging from src/kernel/mem.c: the walk, the final flush
(guarded by a nonzero previous physical start), and the closing count
report. -/
def mem_DebugPaging (M : Mem) (maxPagesPrinted : Nat) : DbgState :=
  let s := mem_DebugPagingWalk M maxPagesPrinted
  let s1 :=
    if 0 < s.prevPageStart then
      { s with
        pages := s.pages + 1
        events := s.events ++ [DbgEvent.rangeLine s.prevVirtualStart s.prevVirtualEnd
          s.prevPageStart s.prevPageEnd] }
    else s
  { s1 with events := s1.events ++ [DbgEvent.countLine s1.pages, DbgEvent.endLine] }

/-- Recognizer for a printed range line. -/
def isRangeLine : DbgEvent → Bool
  | DbgEvent.rangeLine _ _ _ _ => true
  | _ => false

/-- Number of range lines printed in an event trace. -/
def rangeCount (evs : List DbgEvent) : Nat := evs.countP isRangeLine


/-- Generic preservation of an invariant by List.foldl. -/
theorem foldl_inv {α σ : Type _} (P : σ → Prop) (f : σ → α → σ)
    (hf : ∀ s a, P s → P (f s a)) : ∀ (l : List α) (s : σ), P s → P (l.foldl f s) := by
  intro l
  induction l with
  | nil =>
      intro s hs
      exact hs
  | cons a t ih =>
      intro s hs
      exact ih _ (hf s a hs)

/-- Invariant of the walk: the number of range lines printed so far is
min(pages, maxPagesPrinted - 1) - each flush prints only while strictly
fewer than maxPagesPrinted flushes have happened, and the print is
checked after the increment. -/
def walkPrintInv (maxPagesPrinted : Nat) (s : DbgState) : Prop :=
  rangeCount s.events = min s.pages (maxPagesPrinted - 1)

theorem debugLeafStep_printInv (maxPagesPrinted : Nat) (s : DbgState) (i j k pde : Nat)
    (h : walkPrintInv maxPagesPrinted s) :
    walkPrintInv maxPagesPrinted (debugLeafStep maxPagesPrinted s i j k pde) := by
  unfold walkPrintInv at h ⊢
  unfold debugLeafStep
  by_cases h1 : 0 < s.prevPageEnd
  · rw [if_pos h1]
    by_cases hc : s.prevPageEnd + 1 = pageStartOf pde
        ∧ s.prevVirtualEnd + 1 = virtualStartOf i j k
    · rw [if_pos hc]
      exact h
    · rw [if_neg hc]
      dsimp only
      by_cases h2 : s.pages + 1 < maxPagesPrinted
      · rw [if_pos h2]
        simp [rangeCount, List.countP_append, List.countP_cons, isRangeLine] at h ⊢
        omega
      · rw [if_neg h2]
        have hz : (if s.pages + 1 = maxPagesPrinted
            then [DbgEvent.stoppingLine maxPagesPrinted] else []).countP isRangeLine = 0 := by
          split
          · simp [List.countP_cons, isRangeLine]
          · simp
        simp [rangeCount, List.countP_append, hz] at h ⊢
        omega
  · rw [if_neg h1]
    exact h

theorem debugStepK_printInv (M : Mem) (maxPagesPrinted i j pdtB : Nat) (s : DbgState)
    (k : Nat) (h : walkPrintInv maxPagesPrinted s) :
    walkPrintInv maxPagesPrinted (debugStepK M maxPagesPrinted i j pdtB s k) := by
  unfold debugStepK
  by_cases hp : isPresent (M (pdtB + 8 * k))
  · rw [if_pos hp]
    by_cases hl : M (pdtB + 8 * k) &&& PAGE_FLAG_LARGE_PAGE_SIZE = 0
    · rw [if_pos hl]
      unfold walkPrintInv at h ⊢
      simp [rangeCount, List.countP_append, List.countP_cons, isRangeLine] at h ⊢
      omega
    · rw [if_neg hl]
      exact debugLeafStep_printInv maxPagesPrinted s i j k _ h
  · rw [if_neg hp]
    exact h

theorem debugStepJ_printInv (M : Mem) (maxPagesPrinted i pdptB : Nat) (s : DbgState)
    (j : Nat) (h : walkPrintInv maxPagesPrinted s) :
    walkPrintInv maxPagesPrinted (debugStepJ M maxPagesPrinted i pdptB s j) := by
  unfold debugStepJ
  by_cases hp : isPresent (M (pdptB + 8 * j))
  · rw [if_pos hp]
    exact foldl_inv _ _ (fun t k ht => debugStepK_printInv M maxPagesPrinted i j _ t k ht) _ s h
  · rw [if_neg hp]
    exact h

theorem debugStepI_printInv (M : Mem) (maxPagesPrinted : Nat) (s : DbgState)
    (i : Nat) (h : walkPrintInv maxPagesPrinted s) :
    walkPrintInv maxPagesPrinted (debugStepI M maxPagesPrinted s i) := by
  unfold debugStepI
  by_cases hp : isPresent (M (PML4 + 8 * i))
  · rw [if_pos hp]
    exact foldl_inv _ _ (fun t j ht => debugStepJ_printInv M maxPagesPrinted i _ t j ht) _ s h
  · rw [if_neg hp]
    split
    · unfold walkPrintInv at h ⊢
      simp [rangeCount, List.countP_append, List.countP_cons, isRangeLine] at h ⊢
      omega
    · exact h

theorem mem_DebugPagingWalk_printInv (M : Mem) (maxPagesPrinted : Nat) :
    walkPrintInv maxPagesPrinted (mem_DebugPagingWalk M maxPagesPrinted) := by
  unfold mem_DebugPagingWalk
  apply foldl_inv _ _ (fun t i ht => debugStepI_printInv M maxPagesPrinted t i ht)
  unfold walkPrintInv
  simp [rangeCount, List.countP_cons, isRangeLine]


/-- Claim C6: with a previous range pending, a new leaf is merged into
it exactly when both the physical and the virtual ranges are
contiguous; when either contiguity fails, the previous range is
flushed (the counter advances) and the new leaf starts a fresh range. -/
theorem debugLeafStep_merges_iff (maxPagesPrinted : Nat) (s : DbgState) (i j k pde : Nat)
    (h : 0 < s.prevPageEnd) :
    (((debugLeafStep maxPagesPrinted s i j k pde).pages = s.pages
      ∧ (debugLeafStep maxPagesPrinted s i j k pde).prevPageStart = s.prevPageStart
      ∧ (debugLeafStep maxPagesPrinted s i j k pde).prevVirtualStart = s.prevVirtualStart
      ∧ (debugLeafStep maxPagesPrinted s i j k pde).prevPageEnd = pageEndOf pde
      ∧ (debugLeafStep maxPagesPrinted s i j k pde).prevVirtualEnd = virtualEndOf i j k
      ∧ (debugLeafStep maxPagesPrinted s i j k pde).events = s.events)
      ↔ (s.prevPageEnd + 1 = pageStartOf pde ∧ s.prevVirtualEnd + 1 = virtualStartOf i j k))
    ∧ (((debugLeafStep maxPagesPrinted s i j k pde).pages = s.pages + 1
      ∧ (debugLeafStep maxPagesPrinted s i j k pde).prevPageStart = pageStartOf pde
      ∧ (debugLeafStep maxPagesPrinted s i j k pde).prevVirtualStart = virtualStartOf i j k
      ∧ (debugLeafStep maxPagesPrinted s i j k pde).prevPageEnd = pageEndOf pde
      ∧ (debugLeafStep maxPagesPrinted s i j k pde).prevVirtualEnd = virtualEndOf i j k)
      ↔ ¬ (s.prevPageEnd + 1 = pageStartOf pde
           ∧ s.prevVirtualEnd + 1 = virtualStartOf i j k)) := by
  by_cases hc : s.prevPageEnd + 1 = pageStartOf pde
      ∧ s.prevVirtualEnd + 1 = virtualStartOf i j k
  · constructor
    · simp [debugLeafStep, h, hc]
    · simp [debugLeafStep, h, hc]
  · constructor
    · simp [debugLeafStep, h, hc]
    · simp [debugLeafStep, h, hc]

/-- A walker state with a pending previous range. -/
def dbgW : DbgState :=
  { prevVirtualStart := 0, prevVirtualEnd := 0x1FFFFF, prevPageStart := 0x200000,
    prevPageEnd := 0x3FFFFF, pages := 0, events := [] }

theorem debugLeafStep_merges_iff_witness :
    0 < dbgW.prevPageEnd
    ∧ ((((debugLeafStep 0 dbgW 0 0 2 0x400083).pages = dbgW.pages
      ∧ (debugLeafStep 0 dbgW 0 0 2 0x400083).prevPageStart = dbgW.prevPageStart
      ∧ (debugLeafStep 0 dbgW 0 0 2 0x400083).prevVirtualStart = dbgW.prevVirtualStart
      ∧ (debugLeafStep 0 dbgW 0 0 2 0x400083).prevPageEnd = pageEndOf 0x400083
      ∧ (debugLeafStep 0 dbgW 0 0 2 0x400083).prevVirtualEnd = virtualEndOf 0 0 2
      ∧ (debugLeafStep 0 dbgW 0 0 2 0x400083).events = dbgW.events)
      ↔ (dbgW.prevPageEnd + 1 = pageStartOf 0x400083
         ∧ dbgW.prevVirtualEnd + 1 = virtualStartOf 0 0 2))
    ∧ (((debugLeafStep 0 dbgW 0 0 2 0x400083).pages = dbgW.pages + 1
      ∧ (debugLeafStep 0 dbgW 0 0 2 0x400083).prevPageStart = pageStartOf 0x400083
      ∧ (debugLeafStep 0 dbgW 0 0 2 0x400083).prevVirtualStart = virtualStartOf 0 0 2
      ∧ (debugLeafStep 0 dbgW 0 0 2 0x400083).prevPageEnd = pageEndOf 0x400083
      ∧ (debugLeafStep 0 dbgW 0 0 2 0x400083).prevVirtualEnd = virtualEndOf 0 0 2)
      ↔ ¬ (dbgW.prevPageEnd + 1 = pageStartOf 0x400083
           ∧ dbgW.prevVirtualEnd + 1 = virtualStartOf 0 0 2))) :=
  ⟨by decide, debugLeafStep_merges_iff 0 dbgW 0 0 2 0x400083 (by decide)⟩

/-- A concrete tree with a single present large-page leaf mapping
physical base 0x200000 (root entry 0 at 0x3000, directory-pointer
entry 0 at 0x4000, directory entry 0 a present large page). -/
def memC9 : Mem := fun a =>
  if a = 0x2000 then 0x3003
  else if a = 0x3000 then 0x4003
  else if a = 0x4000 then 0x200083
  else 0

theorem rangeCount_append (a b : List DbgEvent) :
    rangeCount (a ++ b) = rangeCount a + rangeCount b := by
  simp [rangeCount, List.countP_append]

theorem rangeCount_rangeLine (vs ve ps pe : Nat) :
    rangeCount [DbgEvent.rangeLine vs ve ps pe] = 1 := by
  simp [rangeCount, List.countP_cons, isRangeLine]

theorem rangeCount_tailEvents (n : Nat) :
    rangeCount [DbgEvent.countLine n, DbgEvent.endLine] = 0 := by
  simp [rangeCount, List.countP_cons, isRangeLine]

/-- Counterexample to claim C9: with maxPagesPrinted = 0 the walker
still prints one range line - the end-of-walk flush is not capped. -/
theorem mem_DebugPaging_zero_still_prints :
    rangeCount (mem_DebugPaging memC9 0).events = 1 := by decide

/-- Claim C9 (amended): the walk prints at most maxPagesPrinted - 1
ranges, and the final flush adds at most one more, so at most
max(maxPagesPrinted, 1) range lines are printed in full; the count of
coalesced ranges found is always reported. -/
theorem mem_DebugPaging_print_cap (M : Mem) (maxPagesPrinted : Nat) :
    rangeCount (mem_DebugPaging M maxPagesPrinted).events ≤ Nat.max maxPagesPrinted 1
    ∧ DbgEvent.countLine (mem_DebugPaging M maxPagesPrinted).pages ∈
        (mem_DebugPaging M maxPagesPrinted).events := by
  have hw := mem_DebugPagingWalk_printInv M maxPagesPrinted
  unfold walkPrintInv at hw
  have hw1 : rangeCount (mem_DebugPagingWalk M maxPagesPrinted).events ≤
      maxPagesPrinted - 1 := by
    rw [hw]
    exact Nat.min_le_right _ _
  have hmax1 : maxPagesPrinted ≤ Nat.max maxPagesPrinted 1 := Nat.le_max_left _ _
  have hmax2 : 1 ≤ Nat.max maxPagesPrinted 1 := Nat.le_max_right _ _
  unfold mem_DebugPaging
  dsimp only
  by_cases hps : 0 < (mem_DebugPagingWalk M maxPagesPrinted).prevPageStart
  · simp only [if_pos hps]
    constructor
    · rw [rangeCount_append, rangeCount_append, rangeCount_rangeLine, rangeCount_tailEvents]
      omega
    · simp
  · simp only [if_neg hps]
    constructor
    · rw [rangeCount_append, rangeCount_tailEvents]
      omega
    · simp

/-- Claim C10: the end-of-walk flush happens exactly when the physical
start of the pending final range is nonzero, independently of
maxPagesPrinted: a final range with physical start 0 is neither printed
nor counted, a final range with nonzero physical start is always
printed and counted. -/
theorem mem_DebugPaging_final_flush (M : Mem) (maxPagesPrinted : Nat) :
    (mem_DebugPaging M maxPagesPrinted).pages =
      (mem_DebugPagingWalk M maxPagesPrinted).pages +
        (if 0 < (mem_DebugPagingWalk M maxPagesPrinted).prevPageStart then 1 else 0)
    ∧ rangeCount (mem_DebugPaging M maxPagesPrinted).events =
      rangeCount (mem_DebugPagingWalk M maxPagesPrinted).events +
        (if 0 < (mem_DebugPagingWalk M maxPagesPrinted).prevPageStart then 1 else 0)
    ∧ (if 0 < (mem_DebugPagingWalk M maxPagesPrinted).prevPageStart
       then DbgEvent.rangeLine (mem_DebugPagingWalk M maxPagesPrinted).prevVirtualStart
         (mem_DebugPagingWalk M maxPagesPrinted).prevVirtualEnd
         (mem_DebugPagingWalk M maxPagesPrinted).prevPageStart
         (mem_DebugPagingWalk M maxPagesPrinted).prevPageEnd ∈
           (mem_DebugPaging M maxPagesPrinted).events
       else (mem_DebugPaging M maxPagesPrinted).events =
         (mem_DebugPagingWalk M maxPagesPrinted).events ++
           [DbgEvent.countLine (mem_DebugPagingWalk M maxPagesPrinted).pages,
            DbgEvent.endLine]) := by
  unfold mem_DebugPaging
  dsimp only
  by_cases hps : 0 < (mem_DebugPagingWalk M maxPagesPrinted).prevPageStart
  · simp only [if_pos hps]
    refine ⟨?_, ?_, ?_⟩
    · trivial
    · rw [rangeCount_append, rangeCount_append, rangeCount_rangeLine, rangeCount_tailEvents]
    · simp
  · simp only [if_neg hps]
    refine ⟨?_, ?_, ?_⟩
    · trivial
    · rw [rangeCount_append, rangeCount_tailEvents]
    · trivial


/-! The interrupt subsystem, src/kernel/int.c.  Port input and output,
the cli and sti instructions, and diagnostic printing are modelled as a
trace of events on a world that also carries the queue of values the
in-port will return and the time_Ticker global. -/

inductive PortEvent where
  | cli : PortEvent
  | sti : PortEvent
  | inp (port v : Nat) : PortEvent
  | out (port v : Nat) : PortEvent
  | log (msg : String) : PortEvent
  | logN (msg : String) (n : Nat) : PortEvent
deriving DecidableEq

structure World where
  pending : List Nat
  ticker : Nat
  trace : List PortEvent
deriving DecidableEq

/-- port_In8 from src/kernel/port.c: returns the next pending byte. -/
def port_In8 (port : Nat) (w : World) : Nat × World :=
  let v := (w.pending.headD 0) % 256
  (v, { w with pending := w.pending.tail, trace := w.trace ++ [PortEvent.inp port v] })

/-- port_Out8 from src/kernel/port.c. -/
def port_Out8 (port v : Nat) (w : World) : World :=
  { w with trace := w.trace ++ [PortEvent.out port (v % 256)] }

/-- std_Printk modelled as a log event. -/
def printk (msg : String) (w : World) : World :=
  { w with trace := w.trace ++ [PortEvent.log msg] }

/-- std_Printk with one numeric argument. -/
def printkN (msg : String) (n : Nat) (w : World) : World :=
  { w with trace := w.trace ++ [PortEvent.logN msg n] }

def asmCli (w : World) : World := { w with trace := w.trace ++ [PortEvent.cli] }

def asmSti (w : World) : World := { w with trace := w.trace ++ [PortEvent.sti] }

/-- The CPU-pushed frame a handler receives. -/
structure interruptFrame where
  ip : Nat
  cs : Nat
  flags : Nat
  sp : Nat
  ss : Nat

/-- The generic fallback: dump the frame and return. -/
def handleUnsupportedInterrupt (frame : interruptFrame) (w : World) : World :=
  let w := printk "unsupported interrupt" w
  let w := printkN "ip" frame.ip w
  let w := printkN "cs" frame.cs w
  let w := printkN "flags" frame.flags w
  let w := printkN "sp" frame.sp w
  printkN "ss" frame.ss w

/-- INT 32 (IRQ 0). -/
def handleTimerInterrupt (w : World) : World :=
  let w := printk "timer interrupt" w
  port_Out8 0x20 0x20 w

/-- INT 33 (IRQ 1): read the scan code, drain the data port again, then
acknowledge. -/
def handleKeyboardInterrupt (w : World) : World :=
  let r := port_In8 0x60 w
  let w := printkN "keyboard interrupt" r.1 r.2
  let r2 := port_In8 0x60 w
  port_Out8 0x20 0x20 r2.2

/-- INT 34 (IRQ 2). -/
def handleCascadeInterrupt (w : World) : World :=
  let w := printk "cascade interrupt" w
  port_Out8 0x20 0x20 w

/-- INT 35 (IRQ 3). -/
def handleCOM2Interrupt (w : World) : World :=
  let w := printk "COM2 interrupt" w
  port_Out8 0x20 0x20 w

/-- INT 36 (IRQ 4). -/
def handleCOM1Interrupt (w : World) : World :=
  let w := printk "COM1 interrupt" w
  port_Out8 0x20 0x20 w

/-- INT 37 (IRQ 5). -/
def handleLPT2Interrupt (w : World) : World :=
  let w := printk "LPT2 interrupt" w
  port_Out8 0x20 0x20 w

/-- INT 38 (IRQ 6). -/
def handleFloppyDiskInterrupt (w : World) : World :=
  let w := printk "floppy disk interrupt" w
  port_Out8 0x20 0x20 w

/-- INT 39 (IRQ 7): poll the in-service register via command 0x0b and
acknowledge only when the IRQ 7 bit is actually set. -/
def handleLPT1Interrupt (w : World) : World :=
  let w := printk "LPT1 interrupt" w
  let w := port_Out8 0x20 0x0b w
  let r := port_In8 0x20 w
  if r.1 &&& 0x80 ≠ 0 then port_Out8 0x20 0x20 r.2 else r.2

/-- INT 40 (IRQ 8): clear the RTC pending latch (register C via ports
0x70 and 0x71), count the tick, then acknowledge both controllers. -/
def handleClockInterrupt (w : World) : World :=
  let w := port_Out8 0x70 0x0c w
  let r := port_In8 0x71 w
  let w : World := { r.2 with ticker := (r.2.ticker + 1) % 2 ^ 64 }
  let w := if w.ticker % 1024 = 0 then printkN "uptime" (w.ticker / 1024) w else w
  let w := port_Out8 0xa0 0x20 w
  port_Out8 0x20 0x20 w

/-- INT 41 (IRQ 9). -/
def handleIRQ9Interrupt (w : World) : World :=
  let w := printk "IRQ 9 interrupt" w
  let w := port_Out8 0xa0 0x20 w
  port_Out8 0x20 0x20 w

/-- INT 42 (IRQ 10). -/
def handleIRQ10Interrupt (w : World) : World :=
  let w := printk "IRQ 10 interrupt" w
  let w := port_Out8 0xa0 0x20 w
  port_Out8 0x20 0x20 w

/-- INT 43 (IRQ 11). -/
def handleIRQ11Interrupt (w : World) : World :=
  let w := printk "IRQ 11 interrupt" w
  let w := port_Out8 0xa0 0x20 w
  port_Out8 0x20 0x20 w

/-- INT 44 (IRQ 12). -/
def handlePS2MouseInterrupt (w : World) : World :=
  let w := printk "PS2 mouse interrupt" w
  let w := port_Out8 0xa0 0x20 w
  port_Out8 0x20 0x20 w

/-- INT 45 (IRQ 13). -/
def handleCoprocessorInterrupt (w : World) : World :=
  let w := printk "Coprocessor interrupt" w
  let w := port_Out8 0xa0 0x20 w
  port_Out8 0x20 0x20 w

/-- INT 46 (IRQ 14). -/
def handlePrimaryATAInterrupt (w : World) : World :=
  let w := printk "primary ATA interrupt" w
  let w := port_Out8 0xa0 0x20 w
  port_Out8 0x20 0x20 w

/-- INT 47 (IRQ 15). -/
def handleSecondaryATAInterrupt (w : World) : World :=
  let w := printk "secondary ATA interrupt" w
  let w := port_Out8 0xa0 0x20 w
  port_Out8 0x20 0x20 w

/-- INT 0xff. -/
def handleSpuriousInterrupt (w : World) : World :=
  printk "spurious interrupt" w


/-- Claim C5: every hardware-IRQ handler acknowledges the primary
interrupt controller with the end-of-interrupt byte 0x20, handlers for
IRQs 8-15 additionally acknowledge the secondary controller (port 0xa0)
first; the keyboard handler drains port 0x60 before acknowledging; the
clock handler clears the RTC pending latch (register C via ports
0x70/0x71) before acknowledging; and the IRQ 7 handler polls the
in-service register (command 0x0b on port 0x20) and sends the
end-of-interrupt byte exactly when bit 7 of the answer is set. -/
theorem irq_handlers_acknowledge (w : World) :
    (handleTimerInterrupt w).trace =
      w.trace ++ [PortEvent.log "timer interrupt", PortEvent.out 0x20 0x20]
    ∧ (handleKeyboardInterrupt w).trace = w.trace ++
        [PortEvent.inp 0x60 (w.pending.headD 0 % 256),
         PortEvent.logN "keyboard interrupt" (w.pending.headD 0 % 256),
         PortEvent.inp 0x60 (w.pending.tail.headD 0 % 256),
         PortEvent.out 0x20 0x20]
    ∧ (handleCascadeInterrupt w).trace =
      w.trace ++ [PortEvent.log "cascade interrupt", PortEvent.out 0x20 0x20]
    ∧ (handleCOM2Interrupt w).trace =
      w.trace ++ [PortEvent.log "COM2 interrupt", PortEvent.out 0x20 0x20]
    ∧ (handleCOM1Interrupt w).trace =
      w.trace ++ [PortEvent.log "COM1 interrupt", PortEvent.out 0x20 0x20]
    ∧ (handleLPT2Interrupt w).trace =
      w.trace ++ [PortEvent.log "LPT2 interrupt", PortEvent.out 0x20 0x20]
    ∧ (handleFloppyDiskInterrupt w).trace =
      w.trace ++ [PortEvent.log "floppy disk interrupt", PortEvent.out 0x20 0x20]
    ∧ (handleLPT1Interrupt w).trace = w.trace ++
        ([PortEvent.log "LPT1 interrupt", PortEvent.out 0x20 0x0b,
          PortEvent.inp 0x20 (w.pending.headD 0 % 256)] ++
         (if w.pending.headD 0 % 256 &&& 0x80 ≠ 0 then [PortEvent.out 0x20 0x20] else []))
    ∧ (handleClockInterrupt w).trace = w.trace ++
        ([PortEvent.out 0x70 0x0c, PortEvent.inp 0x71 (w.pending.headD 0 % 256)] ++
         (if (w.ticker + 1) % 2 ^ 64 % 1024 = 0
          then [PortEvent.logN "uptime" ((w.ticker + 1) % 2 ^ 64 / 1024)] else []) ++
         [PortEvent.out 0xa0 0x20, PortEvent.out 0x20 0x20])
    ∧ (handleIRQ9Interrupt w).trace = w.trace ++
        [PortEvent.log "IRQ 9 interrupt", PortEvent.out 0xa0 0x20, PortEvent.out 0x20 0x20]
    ∧ (handleIRQ10Interrupt w).trace = w.trace ++
        [PortEvent.log "IRQ 10 interrupt", PortEvent.out 0xa0 0x20, PortEvent.out 0x20 0x20]
    ∧ (handleIRQ11Interrupt w).trace = w.trace ++
        [PortEvent.log "IRQ 11 interrupt", PortEvent.out 0xa0 0x20, PortEvent.out 0x20 0x20]
    ∧ (handlePS2MouseInterrupt w).trace = w.trace ++
        [PortEvent.log "PS2 mouse interrupt", PortEvent.out 0xa0 0x20, PortEvent.out 0x20 0x20]
    ∧ (handleCoprocessorInterrupt w).trace = w.trace ++
        [PortEvent.log "Coprocessor interrupt", PortEvent.out 0xa0 0x20, PortEvent.out 0x20 0x20]
    ∧ (handlePrimaryATAInterrupt w).trace = w.trace ++
        [PortEvent.log "primary ATA interrupt", PortEvent.out 0xa0 0x20, PortEvent.out 0x20 0x20]
    ∧ (handleSecondaryATAInterrupt w).trace = w.trace ++
        [PortEvent.log "secondary ATA interrupt", PortEvent.out 0xa0 0x20,
         PortEvent.out 0x20 0x20] := by
  refine ⟨?_, ?_, ?_, ?_, ?_, ?_, ?_, ?_, ?_, ?_, ?_, ?_, ?_, ?_, ?_, ?_⟩
  · simp [handleTimerInterrupt, printk, port_Out8]
  · simp [handleKeyboardInterrupt, printkN, port_In8, port_Out8]
  · simp [handleCascadeInterrupt, printk, port_Out8]
  · simp [handleCOM2Interrupt, printk, port_Out8]
  · simp [handleCOM1Interrupt, printk, port_Out8]
  · simp [handleLPT2Interrupt, printk, port_Out8]
  · simp [handleFloppyDiskInterrupt, printk, port_Out8]
  · by_cases hb : w.pending.head?.getD 0 % 256 &&& 0x80 = 0
    · simp [handleLPT1Interrupt, printk, port_In8, port_Out8, hb]
    · simp [handleLPT1Interrupt, printk, port_In8, port_Out8, hb]
  · by_cases ht : (w.ticker + 1) % 2 ^ 64 % 1024 = 0
    · simp only [show (2 : Nat) ^ 64 = 18446744073709551616 by norm_num] at ht
      simp [handleClockInterrupt, printkN, port_In8, port_Out8, ht]
    · simp only [show (2 : Nat) ^ 64 = 18446744073709551616 by norm_num] at ht
      simp [handleClockInterrupt, printkN, port_In8, port_Out8, ht]
  · simp [handleIRQ9Interrupt, printk, port_Out8]
  · simp [handleIRQ10Interrupt, printk, port_Out8]
  · simp [handleIRQ11Interrupt, printk, port_Out8]
  · simp [handlePS2MouseInterrupt, printk, port_Out8]
  · simp [handleCoprocessorInterrupt, printk, port_Out8]
  · simp [handlePrimaryATAInterrupt, printk, port_Out8]
  · simp [handleSecondaryATAInterrupt, printk, port_Out8]


/-! The gate descriptor codec and the trap table builder. -/

/-- The 16-byte IDT gate descriptor (int.c lines 484-492). -/
structure idtDescriptor where
  offset1 : Nat
  selector : Nat
  ist : Nat
  type_attr : Nat
  offset2 : Nat
  offset3 : Nat
  zero : Nat
deriving DecidableEq

def IDT_SELECTOR : Nat := 0x8

def IDT_FLAG_PRESENT : Nat := 128

def IDT_TYPE_INTERRUPT_GATE : Nat := 14

def IDT_TYPE_TRAP_GATE : Nat := 15

def MASK_BITS_31_TO_16 : Nat := 0xFFFF0000

def MASK_BITS_15_TO_0 : Nat := 0x0000FFFF

/-- The IDT: the descriptor table starts at address 0 and descriptor
number gate occupies the 16 bytes at gate <<< 4, so we index slots by
the gate number. -/
def Idt := Nat → idtDescriptor

def idtWrite (t : Idt) (g : Nat) (d : idtDescriptor) : Idt :=
  fun x => if x = g then d else t x

theorem idtWrite_apply (t : Idt) (g : Nat) (d : idtDescriptor) (x : Nat) :
    idtWrite t g d x = if x = g then d else t x := rfl

/-- The descriptor both builders store: the handler address split into
three fragments, the fixed selector, a zero IST, and the type_attr
byte present | DPL << 5 | interrupt-gate type.  The uint8 and uint16
casts of the C code are the explicit mod operations. -/
def gateDescriptor (privilege handler : Nat) : idtDescriptor :=
  let offset := handler
  { offset1 := (MASK_BITS_15_TO_0 &&& offset) % 2 ^ 16
    selector := IDT_SELECTOR
    ist := 0
    type_attr := IDT_FLAG_PRESENT ||| ((3 &&& privilege) <<< 5) % 2 ^ 8 |||
      IDT_TYPE_INTERRUPT_GATE
    offset2 := ((MASK_BITS_31_TO_16 &&& offset) >>> 16) % 2 ^ 16
    offset3 := (offset >>> 32) % 2 ^ 32
    zero := 0 }

/-- createInterruptGate from int.c: store the descriptor into slot
gate. -/
def createInterruptGate (idt : Idt) (gate privilege handler : Nat) : Idt :=
  idtWrite idt gate (gateDescriptor privilege handler)

/-- createExceptionGate from int.c: identical to createInterruptGate
except for the C calling convention of the handler; in particular it
emits the same type_attr byte with the interrupt-gate type. -/
def createExceptionGate (idt : Idt) (gate privilege handler : Nat) : Idt :=
  idtWrite idt gate (gateDescriptor privilege handler)

/-- debugGate from int.c: reassemble the three offset fragments of slot
gate to a 64-bit handler address, and log the decoded fields. -/
def debugGate (idt : Idt) (gate : Nat) : Nat × List PortEvent :=
  let idte := idt gate
  let ptr := idte.offset1 ||| (idte.offset2 <<< 16) ||| (idte.offset3 <<< 32)
  (ptr, [PortEvent.logN "interrupt handler" gate, PortEvent.logN "offset" ptr,
    PortEvent.logN "selector" idte.selector, PortEvent.logN "ist" idte.ist,
    PortEvent.logN "type" idte.type_attr, PortEvent.logN "reserved" idte.zero])

theorem offset1_testBit (a i : Nat) :
    ((MASK_BITS_15_TO_0 &&& a) % 2 ^ 16).testBit i = (decide (i < 16) && a.testBit i) := by
  rw [Nat.testBit_mod_two_pow, Nat.testBit_and]
  rw [show MASK_BITS_15_TO_0 = 2 ^ 16 - 1 from by norm_num [MASK_BITS_15_TO_0],
    Nat.testBit_two_pow_sub_one]
  by_cases hi : i < 16 <;> simp [hi]

theorem offset2_testBit (a t : Nat) :
    (((MASK_BITS_31_TO_16 &&& a) >>> 16) % 2 ^ 16).testBit t =
      (decide (t < 16) && a.testBit (16 + t)) := by
  rw [Nat.testBit_mod_two_pow, Nat.testBit_shiftRight, Nat.testBit_and]
  rw [show MASK_BITS_31_TO_16 = (2 ^ 16 - 1) <<< 16 from by decide,
    Nat.testBit_shiftLeft, Nat.testBit_two_pow_sub_one]
  have h1 : (16 + t ≥ 16) := by omega
  have h2 : 16 + t - 16 = t := by omega
  by_cases ht : t < 16 <;> simp [h1, h2, ht]

theorem offset3_testBit (a t : Nat) :
    ((a >>> 32) % 2 ^ 32).testBit t = (decide (t < 32) && a.testBit (32 + t)) := by
  rw [Nat.testBit_mod_two_pow, Nat.testBit_shiftRight]

/-- Claim C2: decoding a gate built for any 64-bit handler address, any
8-bit privilege and any vector recovers the address exactly. -/
theorem encode_decode_roundtrip (idt : Idt) (v p a : Nat)
    (hv : v < 256) (hp : p < 256) (ha : a < 2 ^ 64) :
    (debugGate (createInterruptGate idt v p a) v).1 = a := by
  show (idtWrite idt v (gateDescriptor p a) v).offset1 |||
      ((idtWrite idt v (gateDescriptor p a) v).offset2 <<< 16) |||
      ((idtWrite idt v (gateDescriptor p a) v).offset3 <<< 32) = a
  rw [idtWrite_apply, if_pos rfl]
  show ((MASK_BITS_15_TO_0 &&& a) % 2 ^ 16) |||
      ((((MASK_BITS_31_TO_16 &&& a) >>> 16) % 2 ^ 16) <<< 16) |||
      (((a >>> 32) % 2 ^ 32) <<< 32) = a
  apply Nat.eq_of_testBit_eq
  intro i
  rw [Nat.testBit_or, Nat.testBit_or, Nat.testBit_shiftLeft, Nat.testBit_shiftLeft,
    offset1_testBit, offset2_testBit, offset3_testBit]
  by_cases h1 : i < 16
  · have hn16 : ¬ (i ≥ 16) := by omega
    have hn32 : ¬ (i ≥ 32) := by omega
    simp [h1, hn16, hn32]
  · by_cases h2 : i < 32
    · have hy16 : i ≥ 16 := by omega
      have hn32 : ¬ (i ≥ 32) := by omega
      have ht : i - 16 < 16 := by omega
      have heq : 16 + (i - 16) = i := by omega
      simp [h1, hy16, hn32, ht, heq]
    · by_cases h3 : i < 64
      · have hy16 : i ≥ 16 := by omega
        have hy32 : i ≥ 32 := by omega
        have hnt : ¬ (i - 16 < 16) := by omega
        have ht : i - 32 < 32 := by omega
        have heq : 32 + (i - 32) = i := by omega
        simp [h1, hy16, hy32, hnt, ht, heq]
      · have hy16 : i ≥ 16 := by omega
        have hy32 : i ≥ 32 := by omega
        have hnt : ¬ (i - 16 < 16) := by omega
        have hnt3 : ¬ (i - 32 < 32) := by omega
        have hbit : a.testBit i = false := by
          apply Nat.testBit_lt_two_pow
          calc a < 2 ^ 64 := ha
            _ ≤ 2 ^ i := Nat.pow_le_pow_right (by omega) (by omega)
        simp [h1, hy16, hy32, hnt, hnt3, hbit]

/-- An IDT whose slots are all zeroed. -/
def emptyIdt : Idt := fun _ =>
  { offset1 := 0, selector := 0, ist := 0, type_attr := 0, offset2 := 0,
    offset3 := 0, zero := 0 }

theorem encode_decode_roundtrip_witness :
    (3 : Nat) < 256 ∧ (200 : Nat) < 256 ∧ (0x123456789ABCDEF0 : Nat) < 2 ^ 64 ∧
      (debugGate (createInterruptGate emptyIdt 3 200 0x123456789ABCDEF0) 3).1 =
        0x123456789ABCDEF0 :=
  ⟨by norm_num, by norm_num, by norm_num,
    encode_decode_roundtrip emptyIdt 3 200 0x123456789ABCDEF0 (by norm_num) (by norm_num)
      (by norm_num)⟩


/-- Claim C3: the type_attr byte emitted by both gate builders is
present(1)<<7 | (privilege & 0b11)<<5 | 0b1110: the present bit is set,
the DPL field is privilege & 3, and the gate-type nibble is the
interrupt-gate constant - also for the error-code builder
createExceptionGate, which emits an identical descriptor. -/
theorem gate_type_attr_spec (idt : Idt) (v p a : Nat) (hv : v < 256) (hp : p < 256) :
    ((createInterruptGate idt v p a) v).type_attr = 128 ||| ((p &&& 3) <<< 5) ||| 14
    ∧ (((createInterruptGate idt v p a) v).type_attr).testBit 7 = true
    ∧ ((((createInterruptGate idt v p a) v).type_attr) >>> 5) &&& 3 = p &&& 3
    ∧ (((createInterruptGate idt v p a) v).type_attr) &&& 15 = 14
    ∧ (createExceptionGate idt v p a) v = (createInterruptGate idt v p a) v := by
  have hread : (createInterruptGate idt v p a) v = gateDescriptor p a := by
    rw [createInterruptGate, idtWrite_apply, if_pos rfl]
  have hle : p &&& 3 ≤ 3 := Nat.and_le_right
  have hq : p &&& 3 = 0 ∨ p &&& 3 = 1 ∨ p &&& 3 = 2 ∨ p &&& 3 = 3 := by omega
  have h3p : 3 &&& p = p &&& 3 := Nat.and_comm 3 p
  have hta : (gateDescriptor p a).type_attr = 128 ||| ((p &&& 3) <<< 5) ||| 14 := by
    show IDT_FLAG_PRESENT ||| ((3 &&& p) <<< 5) % 2 ^ 8 ||| IDT_TYPE_INTERRUPT_GATE =
      128 ||| ((p &&& 3) <<< 5) ||| 14
    rw [h3p]
    have hlt : (p &&& 3) <<< 5 < 2 ^ 8 := by
      rcases hq with h | h | h | h <;> rw [h] <;> decide
    rw [Nat.mod_eq_of_lt hlt]
    rfl
  refine ⟨by rw [hread, hta], ?_, ?_, ?_, rfl⟩
  · rw [hread, hta]
    rcases hq with h | h | h | h <;> rw [h] <;> decide
  · rw [hread, hta]
    rcases hq with h | h | h | h <;> rw [h] <;> decide
  · rw [hread, hta]
    rcases hq with h | h | h | h <;> rw [h] <;> decide

theorem gate_type_attr_spec_witness :
    (8 : Nat) < 256 ∧ (129 : Nat) < 256 ∧
      (((createInterruptGate emptyIdt 8 129 77) 8).type_attr =
          128 ||| ((129 &&& 3) <<< 5) ||| 14
        ∧ (((createInterruptGate emptyIdt 8 129 77) 8).type_attr).testBit 7 = true
        ∧ ((((createInterruptGate emptyIdt 8 129 77) 8).type_attr) >>> 5) &&& 3 = 129 &&& 3
        ∧ (((createInterruptGate emptyIdt 8 129 77) 8).type_attr) &&& 15 = 14
        ∧ (createExceptionGate emptyIdt 8 129 77) 8 = (createInterruptGate emptyIdt 8 129 77) 8) :=
  ⟨by norm_num, by norm_num,
    gate_type_attr_spec emptyIdt 8 129 77 (by norm_num) (by norm_num)⟩

/-- The trap handlers, one tag per C handler function; the linker
assigns each an address, modelled by an arbitrary address assignment
Handler to Nat. -/
inductive Handler where
  | handleUnsupportedInterrupt
  | handleDivideException
  | handleDebugException
  | handleNMIInterrupt
  | handleBreakpointInterrupt
  | handleOverflowInterrupt
  | handleBoundRangeInterrupt
  | handleInvalidOpcodeInterrupt
  | handleDeviceNotAvailableInterrupt
  | handleDoubleFaultException
  | handleCoprocessorSegmentOverrunInterrupt
  | handleInvalidTSSException
  | handleSegmentNotPresentException
  | handleStackSegmentFaultException
  | handleGeneralProtectionException
  | handlePageFaultException
  | handleMathFaultInterrupt
  | handleAlignmentCheckException
  | handleMachineCheckInterrupt
  | handleSIMDFloatingPointExceptionInterrupt
  | handleVirtualizationExceptionInterrupt
  | handleControlProtectionException
  | handleTimerInterrupt
  | handleKeyboardInterrupt
  | handleCascadeInterrupt
  | handleCOM2Interrupt
  | handleCOM1Interrupt
  | handleLPT2Interrupt
  | handleFloppyDiskInterrupt
  | handleLPT1Interrupt
  | handleClockInterrupt
  | handleIRQ9Interrupt
  | handleIRQ10Interrupt
  | handleIRQ11Interrupt
  | handlePS2MouseInterrupt
  | handleCoprocessorInterrupt
  | handlePrimaryATAInterrupt
  | handleSecondaryATAInterrupt
  | handleSpuriousInterrupt
deriving DecidableEq

/-- int_Init from src/kernel/int.c: disable interrupts, install the
fallback handler on all 256 vectors, overwrite the dedicated vectors,
program the interrupt-controller masks, re-enable interrupts. -/
def int_Init (addrOf : Handler → Nat) (idt : Idt) (w : World) : Idt × World :=
  let w := asmCli w
  let idt := (List.range 256).foldl
    (fun t i => createInterruptGate t i 0 (addrOf Handler.handleUnsupportedInterrupt)) idt
  let idt := createInterruptGate idt 0 0 (addrOf Handler.handleDivideException)
  let idt := createInterruptGate idt 1 0 (addrOf Handler.handleDebugException)
  let idt := createInterruptGate idt 2 0 (addrOf Handler.handleNMIInterrupt)
  let idt := createInterruptGate idt 3 0 (addrOf Handler.handleBreakpointInterrupt)
  let idt := createInterruptGate idt 4 0 (addrOf Handler.handleOverflowInterrupt)
  let idt := createInterruptGate idt 5 0 (addrOf Handler.handleBoundRangeInterrupt)
  let idt := createInterruptGate idt 6 0 (addrOf Handler.handleInvalidOpcodeInterrupt)
  let idt := createInterruptGate idt 7 0 (addrOf Handler.handleDeviceNotAvailableInterrupt)
  let idt := createExceptionGate idt 8 0 (addrOf Handler.handleDoubleFaultException)
  let idt := createInterruptGate idt 9 0 (addrOf Handler.handleCoprocessorSegmentOverrunInterrupt)
  let idt := createExceptionGate idt 10 0 (addrOf Handler.handleInvalidTSSException)
  let idt := createExceptionGate idt 11 0 (addrOf Handler.handleSegmentNotPresentException)
  let idt := createExceptionGate idt 12 0 (addrOf Handler.handleStackSegmentFaultException)
  let idt := createExceptionGate idt 13 0 (addrOf Handler.handleGeneralProtectionException)
  let idt := createExceptionGate idt 14 0 (addrOf Handler.handlePageFaultException)
  let idt := createInterruptGate idt 16 0 (addrOf Handler.handleMathFaultInterrupt)
  let idt := createExceptionGate idt 17 0 (addrOf Handler.handleAlignmentCheckException)
  let idt := createInterruptGate idt 18 0 (addrOf Handler.handleMachineCheckInterrupt)
  let idt := createInterruptGate idt 19 0 (addrOf Handler.handleSIMDFloatingPointExceptionInterrupt)
  let idt := createInterruptGate idt 20 0 (addrOf Handler.handleVirtualizationExceptionInterrupt)
  let idt := createExceptionGate idt 21 0 (addrOf Handler.handleControlProtectionException)
  let idt := createInterruptGate idt 32 0 (addrOf Handler.handleTimerInterrupt)
  let idt := createInterruptGate idt 33 0 (addrOf Handler.handleKeyboardInterrupt)
  let idt := createInterruptGate idt 34 0 (addrOf Handler.handleCascadeInterrupt)
  let idt := createInterruptGate idt 35 0 (addrOf Handler.handleCOM2Interrupt)
  let idt := createInterruptGate idt 36 0 (addrOf Handler.handleCOM1Interrupt)
  let idt := createInterruptGate idt 37 0 (addrOf Handler.handleLPT2Interrupt)
  let idt := createInterruptGate idt 38 0 (addrOf Handler.handleFloppyDiskInterrupt)
  let idt := createInterruptGate idt 39 0 (addrOf Handler.handleLPT1Interrupt)
  let idt := createInterruptGate idt 40 0 (addrOf Handler.handleClockInterrupt)
  let idt := createInterruptGate idt 41 0 (addrOf Handler.handleIRQ9Interrupt)
  let idt := createInterruptGate idt 42 0 (addrOf Handler.handleIRQ10Interrupt)
  let idt := createInterruptGate idt 43 0 (addrOf Handler.handleIRQ11Interrupt)
  let idt := createInterruptGate idt 44 0 (addrOf Handler.handlePS2MouseInterrupt)
  let idt := createInterruptGate idt 45 0 (addrOf Handler.handleCoprocessorInterrupt)
  let idt := createInterruptGate idt 46 0 (addrOf Handler.handlePrimaryATAInterrupt)
  let idt := createInterruptGate idt 47 0 (addrOf Handler.handleSecondaryATAInterrupt)
  let idt := createInterruptGate idt 255 0 (addrOf Handler.handleSpuriousInterrupt)
  let w := port_Out8 0x21 1 w
  let w := port_Out8 0xa1 0 w
  let w := asmSti w
  (idt, w)


/-- The handler int_Init leaves installed on each vector (the last
write wins; vectors outside the dedicated set keep the fallback). -/
def handlerFor (v : Nat) : Handler :=
  if v = 255 then Handler.handleSpuriousInterrupt
  else if v = 47 then Handler.handleSecondaryATAInterrupt
  else if v = 46 then Handler.handlePrimaryATAInterrupt
  else if v = 45 then Handler.handleCoprocessorInterrupt
  else if v = 44 then Handler.handlePS2MouseInterrupt
  else if v = 43 then Handler.handleIRQ11Interrupt
  else if v = 42 then Handler.handleIRQ10Interrupt
  else if v = 41 then Handler.handleIRQ9Interrupt
  else if v = 40 then Handler.handleClockInterrupt
  else if v = 39 then Handler.handleLPT1Interrupt
  else if v = 38 then Handler.handleFloppyDiskInterrupt
  else if v = 37 then Handler.handleLPT2Interrupt
  else if v = 36 then Handler.handleCOM1Interrupt
  else if v = 35 then Handler.handleCOM2Interrupt
  else if v = 34 then Handler.handleCascadeInterrupt
  else if v = 33 then Handler.handleKeyboardInterrupt
  else if v = 32 then Handler.handleTimerInterrupt
  else if v = 21 then Handler.handleControlProtectionException
  else if v = 20 then Handler.handleVirtualizationExceptionInterrupt
  else if v = 19 then Handler.handleSIMDFloatingPointExceptionInterrupt
  else if v = 18 then Handler.handleMachineCheckInterrupt
  else if v = 17 then Handler.handleAlignmentCheckException
  else if v = 16 then Handler.handleMathFaultInterrupt
  else if v = 14 then Handler.handlePageFaultException
  else if v = 13 then Handler.handleGeneralProtectionException
  else if v = 12 then Handler.handleStackSegmentFaultException
  else if v = 11 then Handler.handleSegmentNotPresentException
  else if v = 10 then Handler.handleInvalidTSSException
  else if v = 9 then Handler.handleCoprocessorSegmentOverrunInterrupt
  else if v = 8 then Handler.handleDoubleFaultException
  else if v = 7 then Handler.handleDeviceNotAvailableInterrupt
  else if v = 6 then Handler.handleInvalidOpcodeInterrupt
  else if v = 5 then Handler.handleBoundRangeInterrupt
  else if v = 4 then Handler.handleOverflowInterrupt
  else if v = 3 then Handler.handleBreakpointInterrupt
  else if v = 2 then Handler.handleNMIInterrupt
  else if v = 1 then Handler.handleDebugException
  else if v = 0 then Handler.handleDivideException
  else Handler.handleUnsupportedInterrupt

/-- The vectors that receive a dedicated handler. -/
def dedicatedVectors : List Nat :=
  [0, 1, 2, 3, 4, 5, 6, 7, 8, 9, 10, 11, 12, 13, 14, 16, 17, 18, 19, 20, 21, 32, 33, 34, 35, 36, 37, 38, 39, 40, 41, 42, 43, 44, 45, 46, 47, 255]

theorem foldl_idtWrite (d : idtDescriptor) : ∀ (l : List Nat) (t : Idt) (v : Nat),
    (l.foldl (fun t g => idtWrite t g d) t) v = if v ∈ l then d else t v := by
  intro l
  induction l with
  | nil =>
      intro t v
      simp
  | cons a tl ih =>
      intro t v
      rw [List.foldl_cons, ih]
      by_cases hv : v ∈ tl
      · simp [hv]
      · by_cases hva : v = a
        · simp [hv, hva, idtWrite]
        · simp [hv, hva, idtWrite]

/-- Claim C4 (amended): after int_Init every vector below 256 holds the
descriptor the builder creates for its handler, and the handler is a
dedicated one exactly for the vectors 0-14, 16-21, 32-47 and 255; every
other vector keeps the generic fallback. -/
theorem int_Init_installs_all (addrOf : Handler → Nat) (idt : Idt) (w : World) (v : Nat)
    (hv : v < 256) :
    (int_Init addrOf idt w).1 v = gateDescriptor 0 (addrOf (handlerFor v))
    ∧ (handlerFor v ≠ Handler.handleUnsupportedInterrupt ↔ v ∈ dedicatedVectors) := by
  by_cases h255 : v = 255
  · subst h255
    exact ⟨rfl, by decide⟩
  by_cases h47 : v = 47
  · subst h47
    exact ⟨rfl, by decide⟩
  by_cases h46 : v = 46
  · subst h46
    exact ⟨rfl, by decide⟩
  by_cases h45 : v = 45
  · subst h45
    exact ⟨rfl, by decide⟩
  by_cases h44 : v = 44
  · subst h44
    exact ⟨rfl, by decide⟩
  by_cases h43 : v = 43
  · subst h43
    exact ⟨rfl, by decide⟩
  by_cases h42 : v = 42
  · subst h42
    exact ⟨rfl, by decide⟩
  by_cases h41 : v = 41
  · subst h41
    exact ⟨rfl, by decide⟩
  by_cases h40 : v = 40
  · subst h40
    exact ⟨rfl, by decide⟩
  by_cases h39 : v = 39
  · subst h39
    exact ⟨rfl, by decide⟩
  by_cases h38 : v = 38
  · subst h38
    exact ⟨rfl, by decide⟩
  by_cases h37 : v = 37
  · subst h37
    exact ⟨rfl, by decide⟩
  by_cases h36 : v = 36
  · subst h36
    exact ⟨rfl, by decide⟩
  by_cases h35 : v = 35
  · subst h35
    exact ⟨rfl, by decide⟩
  by_cases h34 : v = 34
  · subst h34
    exact ⟨rfl, by decide⟩
  by_cases h33 : v = 33
  · subst h33
    exact ⟨rfl, by decide⟩
  by_cases h32 : v = 32
  · subst h32
    exact ⟨rfl, by decide⟩
  by_cases h21 : v = 21
  · subst h21
    exact ⟨rfl, by decide⟩
  by_cases h20 : v = 20
  · subst h20
    exact ⟨rfl, by decide⟩
  by_cases h19 : v = 19
  · subst h19
    exact ⟨rfl, by decide⟩
  by_cases h18 : v = 18
  · subst h18
    exact ⟨rfl, by decide⟩
  by_cases h17 : v = 17
  · subst h17
    exact ⟨rfl, by decide⟩
  by_cases h16 : v = 16
  · subst h16
    exact ⟨rfl, by decide⟩
  by_cases h14 : v = 14
  · subst h14
    exact ⟨rfl, by decide⟩
  by_cases h13 : v = 13
  · subst h13
    exact ⟨rfl, by decide⟩
  by_cases h12 : v = 12
  · subst h12
    exact ⟨rfl, by decide⟩
  by_cases h11 : v = 11
  · subst h11
    exact ⟨rfl, by decide⟩
  by_cases h10 : v = 10
  · subst h10
    exact ⟨rfl, by decide⟩
  by_cases h9 : v = 9
  · subst h9
    exact ⟨rfl, by decide⟩
  by_cases h8 : v = 8
  · subst h8
    exact ⟨rfl, by decide⟩
  by_cases h7 : v = 7
  · subst h7
    exact ⟨rfl, by decide⟩
  by_cases h6 : v = 6
  · subst h6
    exact ⟨rfl, by decide⟩
  by_cases h5 : v = 5
  · subst h5
    exact ⟨rfl, by decide⟩
  by_cases h4 : v = 4
  · subst h4
    exact ⟨rfl, by decide⟩
  by_cases h3 : v = 3
  · subst h3
    exact ⟨rfl, by decide⟩
  by_cases h2 : v = 2
  · subst h2
    exact ⟨rfl, by decide⟩
  by_cases h1 : v = 1
  · subst h1
    exact ⟨rfl, by decide⟩
  by_cases h0 : v = 0
  · subst h0
    exact ⟨rfl, by decide⟩
  have hfor : handlerFor v = Handler.handleUnsupportedInterrupt := by
    unfold handlerFor
    rw [if_neg h255, if_neg h47, if_neg h46, if_neg h45, if_neg h44, if_neg h43, if_neg h42, if_neg h41, if_neg h40, if_neg h39, if_neg h38, if_neg h37, if_neg h36, if_neg h35, if_neg h34, if_neg h33, if_neg h32, if_neg h21, if_neg h20, if_neg h19, if_neg h18, if_neg h17, if_neg h16, if_neg h14, if_neg h13, if_neg h12, if_neg h11, if_neg h10, if_neg h9, if_neg h8, if_neg h7, if_neg h6, if_neg h5, if_neg h4, if_neg h3, if_neg h2, if_neg h1, if_neg h0]
  constructor
  · simp only [int_Init, createInterruptGate, createExceptionGate, idtWrite_apply]
    rw [foldl_idtWrite]
    simp only [List.mem_range]
    rw [if_neg h255, if_neg h47, if_neg h46, if_neg h45, if_neg h44, if_neg h43, if_neg h42, if_neg h41, if_neg h40, if_neg h39, if_neg h38, if_neg h37, if_neg h36, if_neg h35, if_neg h34, if_neg h33, if_neg h32, if_neg h21, if_neg h20, if_neg h19, if_neg h18, if_neg h17, if_neg h16, if_neg h14, if_neg h13, if_neg h12, if_neg h11, if_neg h10, if_neg h9, if_neg h8, if_neg h7, if_neg h6, if_neg h5, if_neg h4, if_neg h3, if_neg h2, if_neg h1, if_neg h0, if_pos hv, hfor]
  · rw [hfor]
    simp only [ne_eq, not_true_eq_false, false_iff, dedicatedVectors]
    simp only [List.mem_cons, List.not_mem_nil, or_false]
    omega

/-- An address assignment distinguishing the COM2 handler. -/
def addrC4 : Handler → Nat := fun h =>
  match h with
  | Handler.handleCOM2Interrupt => 1
  | _ => 0

def w0 : World := { pending := [], ticker := 0, trace := [] }

/-- Counterexample to claim C4: vector 35 is outside the enumerated
subset of the spec, yet after int_Init its slot holds the dedicated
COM2 gate, not the generic fallback gate. -/
theorem int_Init_vector35_not_fallback :
    (int_Init addrC4 emptyIdt w0).1 35 ≠
      gateDescriptor 0 (addrC4 Handler.handleUnsupportedInterrupt)
    ∧ (int_Init addrC4 emptyIdt w0).1 35 =
      gateDescriptor 0 (addrC4 Handler.handleCOM2Interrupt) := by
  constructor
  · decide
  · decide

theorem int_Init_installs_all_witness :
    (35 : Nat) < 256 ∧
      ((int_Init addrC4 emptyIdt w0).1 35 = gateDescriptor 0 (addrC4 (handlerFor 35))
      ∧ (handlerFor 35 ≠ Handler.handleUnsupportedInterrupt ↔ 35 ∈ dedicatedVectors)) :=
  ⟨by norm_num, int_Init_installs_all addrC4 emptyIdt w0 35 (by norm_num)⟩

/-- Claim C8 evaluation: int_Init writes mask byte 0x01 to the primary
controller mask port 0x21 and 0x00 to the secondary mask port 0xa1.
A clear bit leaves the line unmasked: the keyboard line (bit 1 of the
primary mask) and the clock line (bit 0 of the secondary mask) are
unmasked as the comment in int.c intends, but so are every other line
except the timer - for example COM2 (bit 3) and LPT1 (bit 7) on the
primary controller and IRQ 15 (bit 7) on the secondary - while the
timer line (bit 0 of the primary mask) is the only one masked. -/
theorem int_Init_unmasks_all_but_timer :
    (int_Init addrC4 emptyIdt w0).2.trace =
      [PortEvent.cli, PortEvent.out 0x21 1, PortEvent.out 0xa1 0, PortEvent.sti]
    ∧ Nat.testBit 1 1 = false ∧ Nat.testBit 0 0 = false
    ∧ Nat.testBit 1 3 = false ∧ Nat.testBit 1 7 = false ∧ Nat.testBit 0 7 = false
    ∧ Nat.testBit 1 0 = true := by
  refine ⟨by decide, by decide, by decide, by decide, by decide, by decide, by decide⟩

end Firefly
